import Mathlib

/-!
Verification of the Task/Plan graph-tree engine of src/models/models.py.

The Python object graph is embedded as an arena of task records addressed by
numeric ids.  Python objects are never freed while other objects still hold
references to them (the source's `del self` does not release anything), so the
arena only grows; membership in a plan is reachability from the plan root
through the children mappings.  Every method of the source becomes a function
from states to results; a result carries the final state also when an
exception is raised, because mutations performed before a Python raise
persist on the heap.
-/

namespace Soniai

/-- The Python exceptions raised by the source code. -/
inductive PyErr where
  | valueError (msg : String)
  | keyError (key : String)
  | runtimeError (msg : String)
  | recursionError
deriving DecidableEq, Repr

/-- Fields of `Task` (models.py lines 79-91).  The `plan` back pointer and the
memoised `id` string are omitted: no claim mentions them.  `level` is an `Int`
exactly as a Python int, so the `child.level - 1` arithmetic of `set_parent`
(line 161) does not truncate at zero. -/
structure TaskData where
  name : String
  level : Int
  parent : Option Nat
  dependencies : List Nat
  nexts : List Nat
  children : List (String × Nat)
  description : String
  completed : Bool
  shown_completed : Bool
  position : Option (Int × Int)
  is_open : Bool
deriving DecidableEq, Repr

/-- Field defaults of the pydantic model (models.py 80-91): a freshly
constructed task has level 0, the given relations, empty description and all
flags cleared. -/
def newTask (name : String) (parent : Option Nat) (deps nexts : List Nat)
    (kids : List (String × Nat)) : TaskData :=
  { name := name, level := 0, parent := parent, dependencies := deps,
    nexts := nexts, children := kids, description := "",
    completed := false, shown_completed := false, position := none,
    is_open := false }

/-- The heap of all `Task` objects ever constructed, addressed by id.
`freshId` is the next unused id. -/
structure St where
  tasks : List (Nat × TaskData)
  freshId : Nat
deriving DecidableEq, Repr

def getTask (s : St) (i : Nat) : Option TaskData :=
  (s.tasks.find? (fun p => p.fst == i)).map (fun p => p.snd)

def setTask (s : St) (i : Nat) (td : TaskData) : St :=
  { s with tasks := s.tasks.map (fun p => if p.fst == i then (i, td) else p) }

/-- Python `name in d` for the insertion-ordered `children` dict. -/
def dictHas (d : List (String × Nat)) (k : String) : Bool :=
  d.any (fun p => p.fst == k)

/-- Python `d[k]`; `none` means KeyError at the call site. -/
def dictGet (d : List (String × Nat)) (k : String) : Option Nat :=
  (d.find? (fun p => p.fst == k)).map (fun p => p.snd)

/-- Python `d[k] = v`: replace in place when the key is present, else append
at the end (insertion order). -/
def dictPut (d : List (String × Nat)) (k : String) (v : Nat) :
    List (String × Nat) :=
  if dictHas d k then d.map (fun p => if p.fst == k then (k, v) else p)
  else d ++ [(k, v)]

/-- Python `del d[k]` on a dict whose keys are distinct. -/
def dictDrop (d : List (String × Nat)) (k : String) : List (String × Nat) :=
  d.filter (fun p => p.fst != k)

/-- Python `list.remove(x)`: drop the first occurrence; `none` means the
ValueError "x not in list" at the call site. -/
def listRemove (l : List Nat) (x : Nat) : Option (List Nat) :=
  match l with
  | [] => none
  | y :: ys => if y == x then some ys else (listRemove ys x).map (fun r => y :: r)

/-- Outcome of running a method: normal return or raised exception, together
with the final heap (mutations made before a raise persist). -/
inductive Res (α : Type) where
  | ok : α → St → Res α
  | err : PyErr → St → Res α
deriving DecidableEq, Repr

instance {ε α : Type} [DecidableEq ε] [DecidableEq α] : DecidableEq (Except ε α) :=
  fun x y =>
    match x, y with
    | .ok a, .ok b =>
      if h : a = b then isTrue (by rw [h]) else isFalse (fun hh => h (Except.ok.inj hh))
    | .error e, .error f =>
      if h : e = f then isTrue (by rw [h]) else isFalse (fun hh => h (Except.error.inj hh))
    | .ok _, .error _ => isFalse (fun hh => Except.noConfusion hh)
    | .error _, .ok _ => isFalse (fun hh => Except.noConfusion hh)

def Res.st {α : Type} : Res α → St
  | .ok _ s => s
  | .err _ s => s

def Res.isOk {α : Type} : Res α → Bool
  | .ok _ _ => true
  | .err _ _ => false

def Res.errOf {α : Type} : Res α → Option PyErr
  | .ok _ _ => none
  | .err e _ => some e

/-- Run `f` on the state produced by `r` when `r` raised nothing. -/
def Res.andThen {α β : Type} (r : Res α) (f : St → Res β) : Res β :=
  match r with
  | .ok _ s => f s
  | .err e s => .err e s

def depLevelMsg : String := "Can only add dependencies of the same level"
def childLevelMsg : String := "Can only add children with level = parent.level + 1"
def parentLevelMsg : String := "Can only add parents with level = child.level - 1"
def dupChildMsg (child parent : String) : String :=
  "Child with name " ++ child ++ " already exists in parent " ++ parent
def dictSizeMsg : String := "dictionary changed size during iteration"
def removeMsg : String := "list.remove(x): x not in list"
def missingTaskKey : String := "task"

/-- Combined embedding of the mutually recursive pair add_dependency /
add_next (models.py 138-150).  The selector `asDep` picks the method: the
`true` branch is the body of add_dependency (lines 138-143), the `false`
branch the body of add_next (lines 145-150); each recursive call toggles the
selector, exactly as the two methods call each other.  The recursion always
terminates within three nested calls (the second call finds the reverse edge
already appended), hence the fuel; fuel 3 is exact, see addDepNext_stable. -/
def addDepNext (fuel : Nat) (asDep : Bool) (s : St) (self other : Nat) : Res Unit :=
  match fuel with
  | 0 => .err .recursionError s
  | f + 1 =>
    match getTask s self, getTask s other with
    | some selfT, some otherT =>
      if asDep then
        if other ∈ selfT.dependencies then .ok () s
        else if otherT.level ≠ selfT.level then .err (.valueError depLevelMsg) s
        else
          addDepNext f false
            (setTask s self { selfT with dependencies := selfT.dependencies ++ [other] })
            other self
      else
        if other ∈ selfT.nexts then .ok () s
        else if otherT.level ≠ selfT.level then .err (.valueError depLevelMsg) s
        else
          addDepNext f true
            (setTask s self { selfT with nexts := selfT.nexts ++ [other] })
            other self
    | _, _ => .err (.keyError missingTaskKey) s

/-- models.py 138-143, Task.add_dependency. -/
def add_dependency (fuel : Nat) (s : St) (self other : Nat) : Res Unit :=
  addDepNext fuel true s self other

/-- models.py 145-150, Task.add_next. -/
def add_next (fuel : Nat) (s : St) (self other : Nat) : Res Unit :=
  addDepNext fuel false s self other

/-- Combined embedding of the mutually recursive pair add_child / set_parent
(models.py 152-164).  The `true` branch is the body of add_child (152-157):
silently skipped when a child of the same NAME is already present (even a
different task), raise on level mismatch, else insert and mirror via
set_parent.  The `false` branch is the body of set_parent (159-164): note
that the OLD parent's children mapping is not updated when re-parenting. -/
def addChildParent (fuel : Nat) (asChild : Bool) (s : St) (self other : Nat) : Res Unit :=
  match fuel with
  | 0 => .err .recursionError s
  | f + 1 =>
    match getTask s self, getTask s other with
    | some selfT, some otherT =>
      if asChild then
        if dictHas selfT.children otherT.name then .ok () s
        else if otherT.level ≠ selfT.level + 1 then .err (.valueError childLevelMsg) s
        else
          addChildParent f false
            (setTask s self { selfT with children := dictPut selfT.children otherT.name other })
            other self
      else
        if selfT.parent = some other then .ok () s
        else if otherT.level ≠ selfT.level - 1 then .err (.valueError parentLevelMsg) s
        else
          addChildParent f true
            (setTask s self { selfT with parent := some other })
            other self
    | _, _ => .err (.keyError missingTaskKey) s

/-- models.py 152-157, Task.add_child. -/
def add_child (fuel : Nat) (s : St) (self other : Nat) : Res Unit :=
  addChildParent fuel true s self other

/-- models.py 159-164, Task.set_parent. -/
def set_parent (fuel : Nat) (s : St) (self other : Nat) : Res Unit :=
  addChildParent fuel false s self other

/-- First loop of delete (models.py 190-191): for dep in self.dependencies:
dep.nexts.remove(self).  The loop iterates self.dependencies, which the body
never mutates, so iterating a snapshot is exact. -/
def dropFromNexts (s : St) (self : Nat) (deps : List Nat) : Res Unit :=
  match deps with
  | [] => .ok () s
  | d :: rest =>
    match getTask s d with
    | none => .err (.keyError missingTaskKey) s
    | some dT =>
      match listRemove dT.nexts self with
      | none => .err (.valueError removeMsg) s
      | some l => dropFromNexts (setTask s d { dT with nexts := l }) self rest

/-- Second loop of delete (models.py 192-193): for next in self.nexts:
next.dependencies.remove(self). -/
def dropFromDeps (s : St) (self : Nat) (nxts : List Nat) : Res Unit :=
  match nxts with
  | [] => .ok () s
  | n :: rest =>
    match getTask s n with
    | none => .err (.keyError missingTaskKey) s
    | some nT =>
      match listRemove nT.dependencies self with
      | none => .err (.valueError removeMsg) s
      | some l => dropFromDeps (setTask s n { nT with dependencies := l }) self rest

def childCount (s : St) (i : Nat) : Nat :=
  match getTask s i with
  | some t => t.children.length
  | none => 0

/-- Combined embedding of Task.delete (models.py 189-198) and its children
loop (lines 194-195), mutually recursive through the cascade.  mode = none
runs the body of delete on `self`: unhook self from every dependency's nexts
and every next's dependencies, run the children loop, detach from the
parent's children mapping; `del self` releases nothing, so the heap entry
stays.  mode = some (vals, n0) runs the children loop of a delete of `self`,
where vals are the dict values still to be visited and n0 is the dict size
at loop entry, with CPython dict-iterator semantics: the size is checked at
every iterator step, including the final exhausted one, and
RuntimeError("dictionary changed size during iteration") is raised as soon
as it differs.  The fuel only bounds the total number of steps: any
sufficiently large value yields the Python behaviour. -/
def delRun (fuel : Nat) (s : St) (self : Nat) (mode : Option (List Nat × Nat)) :
    Res Unit :=
  match fuel with
  | 0 => .err .recursionError s
  | f + 1 =>
    match mode with
    | none =>
      match getTask s self with
      | none => .err (.keyError missingTaskKey) s
      | some selfT =>
        match dropFromNexts s self selfT.dependencies with
        | .err e s1 => .err e s1
        | .ok _ s1 =>
          match getTask s1 self with
          | none => .err (.keyError missingTaskKey) s1
          | some selfT1 =>
            match dropFromDeps s1 self selfT1.nexts with
            | .err e s2 => .err e s2
            | .ok _ s2 =>
              match getTask s2 self with
              | none => .err (.keyError missingTaskKey) s2
              | some selfT2 =>
                match delRun f s2 self
                    (some (selfT2.children.map (fun p => p.snd),
                           selfT2.children.length)) with
                | .err e s3 => .err e s3
                | .ok _ s3 =>
                  match getTask s3 self with
                  | none => .err (.keyError missingTaskKey) s3
                  | some selfT3 =>
                    match selfT3.parent with
                    | none => .ok () s3
                    | some p =>
                      match getTask s3 p with
                      | none => .err (.keyError missingTaskKey) s3
                      | some pT =>
                        if dictHas pT.children selfT3.name then
                          .ok () (setTask s3 p
                            { pT with children := dictDrop pT.children selfT3.name })
                        else .err (.keyError selfT3.name) s3
    | some (vals, n0) =>
      match vals with
      | [] =>
        if childCount s self == n0 then .ok () s
        else .err (.runtimeError dictSizeMsg) s
      | c :: rest =>
        if childCount s self == n0 then
          match delRun f s c none with
          | .err e s1 => .err e s1
          | .ok _ s1 => delRun f s1 self (some (rest, n0))
        else .err (.runtimeError dictSizeMsg) s

/-- models.py 189-198, Task.delete. -/
def delete (fuel : Nat) (s : St) (self : Nat) : Res Unit :=
  delRun fuel s self none

/-- post_init loop (models.py 101-102): for child in self.children.values():
child.set_parent(self).  Constructor call sites never pass children. -/
def initKids (s : St) (i : Nat) (kids : List Nat) : Res Unit :=
  match kids with
  | [] => .ok () s
  | k :: rest =>
    match set_parent 3 s k i with
    | .err e s1 => .err e s1
    | .ok _ s1 => initKids s1 i rest

/-- post_init loop (models.py 103-104): for dep in self.dependencies:
dep.add_next(self).  The body never mutates self.dependencies (the reverse
edge is already present as a constructor field), so a snapshot is exact. -/
def initDeps (s : St) (i : Nat) (deps : List Nat) : Res Unit :=
  match deps with
  | [] => .ok () s
  | d :: rest =>
    match add_next 3 s d i with
    | .err e s1 => .err e s1
    | .ok _ s1 => initDeps s1 i rest

/-- post_init loop (models.py 105-106): for next in self.nexts:
next.add_dependency(self). -/
def initNexts (s : St) (i : Nat) (nxts : List Nat) : Res Unit :=
  match nxts with
  | [] => .ok () s
  | n :: rest =>
    match add_dependency 3 s n i with
    | .err e s1 => .err e s1
    | .ok _ s1 => initNexts s1 i rest

/-- Task construction (models.py 79-107): pydantic stores the given fields
(defaults otherwise) as a new heap object, then model_post_init (93-106)
runs: set the level from the parent, roll back and raise on a duplicate
sibling name, register with the parent, then wire the mirror edges.  The
rollback delete runs with fuel 2: every constructor call site of the source
(lines 53, 167, 175, 183) passes no children, so that delete never recurses
and fuel 2 is exact. -/
def taskNew (s : St) (name : String) (parent : Option Nat)
    (deps nxts : List Nat) (kids : List (String × Nat)) : Res Nat :=
  let i := s.freshId
  let td := newTask name parent deps nxts kids
  let s0 : St := { tasks := s.tasks ++ [(i, td)], freshId := s.freshId + 1 }
  let runLoops : St → Res Nat := fun s2 =>
    match initKids s2 i (kids.map (fun p => p.snd)) with
    | .err e s3 => .err e s3
    | .ok _ s3 =>
      match initDeps s3 i deps with
      | .err e s4 => .err e s4
      | .ok _ s4 =>
        match initNexts s4 i nxts with
        | .err e s5 => .err e s5
        | .ok _ s5 => .ok i s5
  match parent with
  | none => runLoops s0
  | some p =>
    match getTask s0 p with
    | none => .err (.keyError missingTaskKey) s0
    | some pT =>
      let s1 := setTask s0 i { td with level := pT.level + 1 }
      if dictHas pT.children name then
        match delete 2 s1 i with
        | .err e s2 => .err e s2
        | .ok _ s2 => .err (.valueError (dupChildMsg name pT.name)) s2
      else
        match add_child 3 s1 p i with
        | .err e s2 => .err e s2
        | .ok _ s2 => runLoops s2

/-- models.py 166-172, Task.create_dependency: a new same-level task under
self's parent, wired to self via nexts=[self]. -/
def create_dependency (s : St) (self : Nat) (name : String) : Res Nat :=
  match getTask s self with
  | none => .err (.keyError missingTaskKey) s
  | some selfT => taskNew s name selfT.parent [] [self] []

/-- models.py 174-180, Task.create_next. -/
def create_next (s : St) (self : Nat) (name : String) : Res Nat :=
  match getTask s self with
  | none => .err (.keyError missingTaskKey) s
  | some selfT => taskNew s name selfT.parent [self] [] []

/-- models.py 182-187, Task.create_child. -/
def create_child (s : St) (self : Nat) (name : String) : Res Nat :=
  taskNew s name (some self) [] [] []

/-- Dependency loop of is_doable (models.py 124-126): return False at the
first dependency that is neither completed nor shown_completed, True when
the loop finishes. -/
def depsBlock (s : St) (deps : List Nat) : Except PyErr Bool :=
  match deps with
  | [] => .ok true
  | d :: rest =>
    match getTask s d with
    | none => .error (.keyError missingTaskKey)
    | some dT =>
      if dT.completed || dT.shown_completed then depsBlock s rest
      else .ok false

/-- models.py 122-127, Task.is_doable, translated with the structure of the
source kept intact: when the parent exists and is NOT doable the dependency
loop is skipped and control falls through to the final `return True`. -/
def is_doable (fuel : Nat) (s : St) (self : Nat) : Except PyErr Bool :=
  match fuel with
  | 0 => .error .recursionError
  | f + 1 =>
    match getTask s self with
    | none => .error (.keyError missingTaskKey)
    | some selfT =>
      match selfT.parent with
      | none => depsBlock s selfT.dependencies
      | some p =>
        match is_doable f s p with
        | .error e => .error e
        | .ok true => depsBlock s selfT.dependencies
        | .ok false => .ok true

/-- Plan.model_post_init (models.py 51-58): construct the root task, level 0,
no parent, named after the plan.  Filesystem access is an excluded
collaborator.  The root always receives id 0 on a fresh heap. -/
def initState (nm : String) : St :=
  (taskNew { tasks := [], freshId := 0 } nm none [] [] []).st

def childrenOf (s : St) (i : Nat) : List (String × Nat) :=
  match getTask s i with
  | some t => t.children
  | none => []

def parentOf (s : St) (i : Nat) : Option Nat :=
  match getTask s i with
  | some t => t.parent
  | none => none

def depsOf (s : St) (i : Nat) : List Nat :=
  match getTask s i with
  | some t => t.dependencies
  | none => []

def nextsOf (s : St) (i : Nat) : List Nat :=
  match getTask s i with
  | some t => t.nexts
  | none => []

def levelOf (s : St) (i : Nat) : Int :=
  match getTask s i with
  | some t => t.level
  | none => 0

/-!
## Basic heap lemmas
-/

theorem findSet_self (l : List (Nat × TaskData)) (i : Nat) (td : TaskData)
    (h : (l.find? (fun p => p.fst == i)).isSome) :
    (l.map (fun p => if p.fst == i then (i, td) else p)).find?
      (fun p => p.fst == i) = some (i, td) := by
  induction l with
  | nil => simp at h
  | cons p rest ih =>
    rw [List.map_cons]
    by_cases hpi : (p.fst == i) = true
    · rw [if_pos hpi]
      exact List.find?_cons_of_pos (p := fun (q : Nat × TaskData) => q.fst == i) _ (by simp)
    · rw [if_neg hpi]
      rw [List.find?_cons_of_neg (p := fun (q : Nat × TaskData) => q.fst == i) _ hpi] at h
      rw [List.find?_cons_of_neg (p := fun (q : Nat × TaskData) => q.fst == i) _ hpi]
      exact ih h

theorem findSet_ne (l : List (Nat × TaskData)) {i j : Nat} (td : TaskData)
    (hne : j ≠ i) :
    (l.map (fun p => if p.fst == i then (i, td) else p)).find?
      (fun p => p.fst == j) = l.find? (fun p => p.fst == j) := by
  induction l with
  | nil => simp
  | cons p rest ih =>
    rw [List.map_cons]
    by_cases hpi : (p.fst == i) = true
    · have hp1 : p.fst = i := by simpa [beq_iff_eq] using hpi
      have h1 : ¬((i, td).fst == j) = true := by
        simp only [beq_iff_eq]; exact fun hh => hne hh.symm
      have h2 : ¬(p.fst == j) = true := by
        simp only [beq_iff_eq, hp1]; exact fun hh => hne hh.symm
      rw [if_pos hpi, List.find?_cons_of_neg (p := fun (q : Nat × TaskData) => q.fst == j) _ h1,
        List.find?_cons_of_neg (p := fun (q : Nat × TaskData) => q.fst == j) _ h2]
      exact ih
    · rw [if_neg hpi]
      by_cases hpj : (p.fst == j) = true
      · rw [List.find?_cons_of_pos (p := fun (q : Nat × TaskData) => q.fst == j) _ hpj,
          List.find?_cons_of_pos (p := fun (q : Nat × TaskData) => q.fst == j) _ hpj]
      · rw [List.find?_cons_of_neg (p := fun (q : Nat × TaskData) => q.fst == j) _ hpj,
          List.find?_cons_of_neg (p := fun (q : Nat × TaskData) => q.fst == j) _ hpj]
        exact ih

theorem findSet_absent (l : List (Nat × TaskData)) (i : Nat) (td : TaskData)
    (h : l.find? (fun p => p.fst == i) = none) :
    l.map (fun p => if p.fst == i then (i, td) else p) = l := by
  induction l with
  | nil => simp
  | cons p rest ih =>
    rw [List.find?_eq_none] at h
    have hp : ¬(p.fst == i) = true := h p (by simp)
    rw [List.map_cons, if_neg hp]
    congr 1
    exact ih (List.find?_eq_none.mpr (fun x hx => h x (List.mem_cons_of_mem _ hx)))

theorem getTask_setTask_self {s : St} {i : Nat} {td0 : TaskData}
    (h : getTask s i = some td0) (td : TaskData) :
    getTask (setTask s i td) i = some td := by
  have hs : (s.tasks.find? (fun p => p.fst == i)).isSome := by
    unfold getTask at h
    cases hf : s.tasks.find? (fun p => p.fst == i) with
    | none => rw [hf] at h; simp at h
    | some v => simp
  unfold getTask setTask
  simp only
  rw [findSet_self s.tasks i td hs]
  rfl

theorem getTask_setTask_ne (s : St) {i j : Nat} (td : TaskData) (hne : j ≠ i) :
    getTask (setTask s i td) j = getTask s j := by
  unfold getTask setTask
  simp only
  rw [findSet_ne s.tasks td hne]

theorem setTask_absent {s : St} {i : Nat} (td : TaskData)
    (h : getTask s i = none) : setTask s i td = s := by
  unfold getTask at h
  have hf : s.tasks.find? (fun p => p.fst == i) = none := by
    cases hf : s.tasks.find? (fun p => p.fst == i) with
    | none => rfl
    | some v => rw [hf] at h; simp at h
  unfold setTask
  cases s with
  | mk tasks fresh =>
    simp only [St.mk.injEq, and_true]
    exact findSet_absent tasks i td hf

theorem getTask_setTask_cases {s : St} {i : Nat} {td : TaskData} {j : Nat} {td2 : TaskData}
    (h : getTask (setTask s i td) j = some td2) : td2 = td ∨ getTask s j = some td2 := by
  by_cases hji : j = i
  · subst hji
    cases h0 : getTask s j with
    | none =>
      rw [setTask_absent td h0] at h
      rw [h0] at h
      cases h
    | some v =>
      rw [getTask_setTask_self h0 td] at h
      exact Or.inl (by injection h with hh; exact hh.symm)
  · rw [getTask_setTask_ne s td hji] at h
    exact Or.inr h

theorem getTask_alloc_old {s : St} {j : Nat} {td2 : TaskData} (i : Nat) (td : TaskData)
    (h : getTask s j = some td2) :
    getTask { tasks := s.tasks ++ [(i, td)], freshId := s.freshId + 1 } j = some td2 := by
  unfold getTask at *
  simp only at *
  rw [List.find?_append]
  cases hf : s.tasks.find? (fun p => p.fst == j) with
  | none => rw [hf] at h; simp at h
  | some v =>
    rw [hf] at h
    rw [Option.or_some]
    exact h

theorem getTask_alloc_self {s : St} (td : TaskData)
    (h : getTask s s.freshId = none) :
    getTask { tasks := s.tasks ++ [(s.freshId, td)], freshId := s.freshId + 1 }
      s.freshId = some td := by
  unfold getTask at *
  simp only at *
  rw [List.find?_append]
  have hf : s.tasks.find? (fun p => p.fst == s.freshId) = none := by
    cases hf : s.tasks.find? (fun p => p.fst == s.freshId) with
    | none => rfl
    | some v => rw [hf] at h; simp at h
  rw [hf, Option.none_or]
  rw [List.find?_cons_of_pos (p := fun (q : Nat × TaskData) => q.fst == s.freshId) _ (by simp)]
  rfl

theorem getTask_alloc_cases {s : St} {j : Nat} {td2 : TaskData} (i : Nat) (td : TaskData)
    (h : getTask { tasks := s.tasks ++ [(i, td)], freshId := s.freshId + 1 } j = some td2) :
    td2 = td ∨ getTask s j = some td2 := by
  unfold getTask at *
  simp only at *
  rw [List.find?_append] at h
  cases hf : s.tasks.find? (fun p => p.fst == j) with
  | none =>
    rw [hf, Option.none_or] at h
    by_cases hji : ((i, td).fst == j) = true
    · rw [List.find?_cons_of_pos (p := fun (q : Nat × TaskData) => q.fst == j) _ hji] at h
      simp at h
      exact Or.inl h.symm
    · rw [List.find?_cons_of_neg (p := fun (q : Nat × TaskData) => q.fst == j) _ hji] at h
      simp [List.find?] at h
  | some v =>
    rw [hf, Option.or_some] at h
    right
    exact h

/-!
## JSON serialization / deserialization (models.py 200-232)
-/

/-- The JSON documents produced and consumed by the persistence layer.  The
arrays of the document shape only ever hold sibling names, so arrays are
embedded as lists of strings. -/
inductive J where
  | str : String → J
  | bool : Bool → J
  | arr : List String → J
  | obj : List (String × J) → J

mutual
/-- Decidable structural equality of documents (the nested inductive defeats
the deriving handler). -/
def jDecEq (a b : J) : Decidable (a = b) :=
  match a, b with
  | .str x, .str y =>
    if h : x = y then isTrue (by rw [h]) else isFalse (fun hh => h (J.str.inj hh))
  | .str _, .bool _ => isFalse (fun hh => J.noConfusion hh)
  | .str _, .arr _ => isFalse (fun hh => J.noConfusion hh)
  | .str _, .obj _ => isFalse (fun hh => J.noConfusion hh)
  | .bool x, .bool y =>
    if h : x = y then isTrue (by rw [h]) else isFalse (fun hh => h (J.bool.inj hh))
  | .bool _, .str _ => isFalse (fun hh => J.noConfusion hh)
  | .bool _, .arr _ => isFalse (fun hh => J.noConfusion hh)
  | .bool _, .obj _ => isFalse (fun hh => J.noConfusion hh)
  | .arr x, .arr y =>
    if h : x = y then isTrue (by rw [h]) else isFalse (fun hh => h (J.arr.inj hh))
  | .arr _, .str _ => isFalse (fun hh => J.noConfusion hh)
  | .arr _, .bool _ => isFalse (fun hh => J.noConfusion hh)
  | .arr _, .obj _ => isFalse (fun hh => J.noConfusion hh)
  | .obj x, .obj y =>
    match jDecEqFields x y with
    | isTrue h => isTrue (by rw [h])
    | isFalse h => isFalse (fun hh => h (J.obj.inj hh))
  | .obj _, .str _ => isFalse (fun hh => J.noConfusion hh)
  | .obj _, .bool _ => isFalse (fun hh => J.noConfusion hh)
  | .obj _, .arr _ => isFalse (fun hh => J.noConfusion hh)
termination_by structural a

def jDecEqFields (a b : List (String × J)) : Decidable (a = b) :=
  match a, b with
  | [], [] => isTrue rfl
  | [], _ :: _ => isFalse (fun hh => List.noConfusion hh)
  | _ :: _, [] => isFalse (fun hh => List.noConfusion hh)
  | (k1, v1) :: r1, (k2, v2) :: r2 =>
    if hk : k1 = k2 then
      match jDecEq v1 v2 with
      | isFalse hv => isFalse (fun hh => by
          injection hh with h1 h2
          injection h1 with hka hva
          exact hv hva)
      | isTrue hv =>
        match jDecEqFields r1 r2 with
        | isTrue hr => isTrue (by rw [hk, hv, hr])
        | isFalse hr => isFalse (fun hh => by
            injection hh with h1 h2
            exact hr h2)
    else isFalse (fun hh => by
      injection hh with h1 h2
      injection h1 with hka hva
      exact hk hka)
termination_by structural a
end

instance : DecidableEq J := jDecEq

/-- Python `doc[k]` on a JSON object; `none` means KeyError. -/
def jGet (fields : List (String × J)) (k : String) : Option J :=
  (fields.find? (fun p => p.fst == k)).map (fun p => p.snd)

def shapeMsg : String := "unexpected document shape"

def namesOf (s : St) (ids : List Nat) : Option (List String) :=
  ids.mapM (fun i => (getTask s i).map (fun t => t.name))

/-- models.py 200-212, Task.get_json: a read-only recursive serialization of
the subtree below `self`.  The result is `none` only on a missing heap id or
exhausted fuel, neither of which Python can hit on a live tree of depth
below the fuel. -/
def get_json (fuel : Nat) (s : St) (self : Nat) : Option J :=
  match fuel with
  | 0 => none
  | f + 1 =>
    match getTask s self with
    | none => none
    | some td => do
      let depNames ← namesOf s td.dependencies
      let nextNames ← namesOf s td.nexts
      let kids ← td.children.mapM
        (fun p => (get_json f s p.snd).map (fun j => (p.fst, j)))
      some (J.obj [("name", .str td.name), ("dependencies", .arr depNames),
                   ("nexts", .arr nextNames), ("description", .str td.description),
                   ("completed", .bool td.completed), ("children", J.obj kids)])

/-- Dependency resolution loop of load_from_json (models.py 220-223):
for dep in task_json["dependencies"]: self.add_dependency(self.parent.children[dep]).
A name absent from the parent's children mapping is a KeyError. -/
def loadDeps (s : St) (self par : Nat) (names : List String) : Res Unit :=
  match names with
  | [] => .ok () s
  | nm :: rest =>
    match getTask s par with
    | none => .err (.keyError missingTaskKey) s
    | some pT =>
      match dictGet pT.children nm with
      | none => .err (.keyError nm) s
      | some sib =>
        match add_dependency 3 s self sib with
        | .err e s1 => .err e s1
        | .ok _ s1 => loadDeps s1 self par rest

/-- Next resolution loop of load_from_json (models.py 224-227). -/
def loadNexts (s : St) (self par : Nat) (names : List String) : Res Unit :=
  match names with
  | [] => .ok () s
  | nm :: rest =>
    match getTask s par with
    | none => .err (.keyError missingTaskKey) s
    | some pT =>
      match dictGet pT.children nm with
      | none => .err (.keyError nm) s
      | some sib =>
        match add_next 3 s self sib with
        | .err e s1 => .err e s1
        | .ok _ s1 => loadNexts s1 self par rest

/-- First children pass of load_from_json (models.py 229-230):
for child_name in task_json["children"].keys(): self.create_child(child_name)
— unconditionally, whether or not a child of that name already exists. -/
def loadCreateKids (s : St) (self : Nat) (names : List String) : Res Unit :=
  match names with
  | [] => .ok () s
  | nm :: rest =>
    match create_child s self nm with
    | .err e s1 => .err e s1
    | .ok _ s1 => loadCreateKids s1 self rest

/-- models.py 214-232, Task.load_from_json.  Field assignments happen in
source order (name, completed, description), so a KeyError on a later field
leaves the earlier assignments in place.  Dependency/next names are resolved
against the parent's children and are skipped entirely on the root (parent
is None).  The second children pass recurses into each child's subtree,
looking the child up in the live mapping.  A document value of the wrong
shape is modelled as an error; pydantic would store it silently, but every
document a claim mentions is well-shaped.  The fuel bounds the recursion
depth; any value above the document depth is exact. -/
def load_from_json (fuel : Nat) (s : St) (self : Nat) (d : J) : Res Unit :=
  match fuel with
  | 0 => .err .recursionError s
  | f + 1 =>
    match d with
    | J.obj fields =>
      match getTask s self with
      | none => .err (.keyError missingTaskKey) s
      | some td =>
        match jGet fields "name" with
        | none => .err (.keyError "name") s
        | some (J.str nm) =>
          let s1 := setTask s self { td with name := nm }
          match jGet fields "completed" with
          | none => .err (.keyError "completed") s1
          | some (J.bool cp) =>
            let s2 := setTask s1 self { td with name := nm, completed := cp }
            match jGet fields "description" with
            | none => .err (.keyError "description") s2
            | some (J.str ds) =>
              let s3 := setTask s2 self
                { td with name := nm, completed := cp, description := ds }
              let cont : St → Res Unit := fun s4 =>
                match jGet fields "children" with
                | none => .err (.keyError "children") s4
                | some (J.obj kids) =>
                  match loadCreateKids s4 self (kids.map (fun p => p.fst)) with
                  | .err e s5 => .err e s5
                  | .ok _ s5 =>
                    kids.foldl
                      (fun acc kv =>
                        acc.andThen (fun s6 =>
                          match getTask s6 self with
                          | none => .err (.keyError missingTaskKey) s6
                          | some td6 =>
                            match dictGet td6.children kv.fst with
                            | none => .err (.keyError kv.fst) s6
                            | some cid => load_from_json f s6 cid kv.snd))
                      (.ok () s5)
                | some _ => .err (.valueError shapeMsg) s4
              match td.parent with
              | none => cont s3
              | some p =>
                match jGet fields "dependencies" with
                | none => .err (.keyError "dependencies") s3
                | some (J.arr depNames) =>
                  match loadDeps s3 self p depNames with
                  | .err e s4 => .err e s4
                  | .ok _ s4 =>
                    match jGet fields "nexts" with
                    | none => .err (.keyError "nexts") s4
                    | some (J.arr nxNames) =>
                      match loadNexts s4 self p nxNames with
                      | .err e s5 => .err e s5
                      | .ok _ s5 => cont s5
                    | some _ => .err (.valueError shapeMsg) s4
                | some _ => .err (.valueError shapeMsg) s3
            | some _ => .err (.valueError shapeMsg) s2
          | some _ => .err (.valueError shapeMsg) s1
        | some _ => .err (.valueError shapeMsg) s
    | _ => .err (.valueError shapeMsg) s

/-!
## Concrete scenarios

All scenarios start from a fresh plan whose root task has id 0; ids are
handed out consecutively by construction order.
-/

/-- Root r(0) with children A(1) and B(2); A depends on B (B incomplete);
C(3) is a child of A.  A is therefore not doable. -/
def c1build : Res Nat :=
  ((create_child (initState "r") 0 "A").andThen (fun s =>
    create_child s 0 "B")).andThen (fun s =>
    (add_dependency 3 s 1 2).andThen (fun s2 => create_child s2 1 "C"))

def c1st : St := c1build.st

/-- C1: the source of is_doable (models.py 122-127) skips the dependency
loop and falls through to `return True` when the parent exists and is not
doable.  In the scenario, A (id 1) is not doable because its dependency B is
neither completed nor shown_completed, yet A's child C (id 3) gets
is_doable() == True, where the claim requires False. -/
theorem c1_isDoable_true_although_parent_not_doable :
    c1build.isOk = true ∧
    parentOf c1st 3 = some 1 ∧
    depsOf c1st 3 = [] ∧
    is_doable 10 c1st 1 = .ok false ∧
    is_doable 10 c1st 3 = .ok true := by decide

/-- Root r(0) with a child X(1). -/
def c2pre : Res Nat := create_child (initState "r") 0 "X"

/-- The failing second construction of a child named X under r. -/
def c2try : Res Nat := c2pre.andThen (fun s => create_child s 0 "X")

/-- C2: constructing a duplicate-named child raises the duplicate-sibling
error, but the rollback `self.delete()` of model_post_init (line 98) removes
the parent's mapping entry for that NAME — which is the ORIGINAL child,
since the half-built task was never registered.  After the failed attempt
r's children mapping is empty instead of still containing X, and the
original X (id 1) is left orphaned with a dangling parent pointer. -/
theorem c2_failed_duplicate_create_empties_parent_mapping :
    childrenOf c2pre.st 0 = [("X", 1)] ∧
    c2try.errOf = some (.valueError (dupChildMsg "X" "r")) ∧
    childrenOf c2try.st 0 = [] ∧
    parentOf c2try.st 1 = some 0 := by decide

/-- Root r(0); T(1) a child of r with children C1(2) and C2(3); D(4) a
sibling of T depending on T (T.create_next). -/
def c3pre : Res Nat :=
  ((((create_child (initState "r") 0 "T").andThen (fun s =>
      create_child s 1 "C1")).andThen (fun s =>
      create_child s 1 "C2")).andThen (fun s =>
      create_next s 1 "D"))

def c3del : Res Unit := c3pre.andThen (fun s => delete 10 s 1)

/-- C3: deleting a task with children does NOT complete normally: the
children loop of delete (models.py 194-195) deletes the first child, which
removes itself from the very dict being iterated, and the next iterator
step raises RuntimeError("dictionary changed size during iteration").  The
deletion is left half done: T's dependency/next links are severed and its
first child is gone, but the second child survives and T is still in r's
children mapping. -/
theorem c3_delete_with_children_raises_runtimeError :
    c3pre.isOk = true ∧
    childrenOf c3pre.st 1 = [("C1", 2), ("C2", 3)] ∧
    depsOf c3pre.st 4 = [1] ∧
    c3del.errOf = some (.runtimeError dictSizeMsg) ∧
    depsOf c3del.st 4 = [] ∧
    childrenOf c3del.st 1 = [("C2", 3)] ∧
    dictGet (childrenOf c3del.st 0) "T" = some 1 := by decide

/-- Root r(0), children A(1) and B(2), C(3) a child of A, then
C.set_parent(B) — a successful public operation. -/
def c6build : Res Unit :=
  (((create_child (initState "r") 0 "A").andThen (fun s =>
     create_child s 0 "B")).andThen (fun s =>
     create_child s 1 "C")).andThen (fun s => set_parent 3 s 3 2)

def c6st : St := c6build.st

/-- C6: set_parent (models.py 159-164) re-parents without detaching from the
old parent's children mapping.  After C.set_parent(B) succeeds, C is still a
value of A.children while C.parent is B, violating the claimed equivalence
B ∈ A.children.values() ⇔ A.parent == B in a state reached purely by
successful public operations. -/
theorem c6_reparent_leaves_child_in_old_parent_mapping :
    c6build.isOk = true ∧
    dictGet (childrenOf c6st 1) "C" = some 3 ∧
    dictGet (childrenOf c6st 2) "C" = some 3 ∧
    parentOf c6st 3 = some 2 ∧
    parentOf c6st 3 ≠ some 1 := by decide

/-- Root r(0), child A(1), child X(2) of r, and a second task named X (id 3)
as a child of A, so X(3) has level 2. -/
def c7pre : Res Nat :=
  ((create_child (initState "r") 0 "A").andThen (fun s =>
    create_child s 0 "X")).andThen (fun s => create_child s 1 "X")

/-- C7 counterexample: r.add_child(X(3)) violates the level arithmetic
(level 2 ≠ 0 + 1) but does not fail: the name check of add_child (line 153)
sees an existing child called X and silently returns.  The call neither
raises nor mutates, refuting that every violating call fails. -/
theorem c7_violating_addChild_silently_noops :
    c7pre.isOk = true ∧
    levelOf c7pre.st 3 = 2 ∧
    levelOf c7pre.st 0 = 0 ∧
    dictHas (childrenOf c7pre.st 0) "X" = true ∧
    dictGet (childrenOf c7pre.st 0) "X" ≠ some 3 ∧
    add_child 3 c7pre.st 0 3 = .ok () c7pre.st := by decide

/-- The serialized form of a one-child plan: root r with a single child a. -/
def c4doc : J :=
  J.obj [("name", .str "r"), ("dependencies", .arr []), ("nexts", .arr []),
         ("description", .str ""), ("completed", .bool false),
         ("children", J.obj
           [("a", J.obj [("name", .str "a"), ("dependencies", .arr []),
                         ("nexts", .arr []), ("description", .str ""),
                         ("completed", .bool false),
                         ("children", J.obj [])])])]

def c4load1 : Res Unit := load_from_json 20 (initState "r") 0 c4doc

def c4load2 : Res Unit := c4load1.andThen (fun s => load_from_json 20 s 0 c4doc)

/-- C4 counterexample: load_from_json (models.py 229-230) calls create_child
for every document child name unconditionally, with no create-if-absent
check.  Loading c4doc into a fresh plan succeeds and creates child a; loading
the same document again into the same tree raises the duplicate-sibling
error instead of updating the existing child in place, refuting that loading
the same document twice succeeds. -/
theorem c4_loading_same_document_twice_raises :
    c4load1.isOk = true ∧
    dictGet (childrenOf c4load1.st 0) "a" = some 1 ∧
    c4load2.errOf = some (.valueError (dupChildMsg "a" "r")) := by decide

/-- A tree built purely from public creation operations: the plan root plus
root.create_dependency("o"), which wires a dependency edge on the root. -/
def c5pre : Res Nat := create_dependency (initState "r") 0 "o"

def c5doc : J := (get_json 10 c5pre.st 0).getD (J.bool false)

def c5load : Res Unit := load_from_json 20 (initState "fresh") 0 c5doc

/-- C5 counterexample: serializing the root records its dependency name "o"
(models.py 203), but load_from_json resolves dependencies only when the node
has a parent (line 219), so on the fresh plan root the list is skipped
entirely.  The reloaded tree has an empty root dependency set where the
original had one edge: the round trip is not structure preserving for every
tree built from public creation/relationship operations. -/
theorem c5_roundtrip_drops_root_dependencies :
    c5pre.isOk = true ∧
    namesOf c5pre.st (depsOf c5pre.st 0) = some ["o"] ∧
    c5load.isOk = true ∧
    depsOf c5load.st 0 = [] := by decide

def c8res : Res Nat := create_dependency (initState "r") 0 "o"

def c8st : St := c8res.st

/-- C8 counterexample: create_dependency on the plan root (models.py
166-172) builds a task with parent = root.parent = None; model_post_init
skips registration entirely, so the new task o (id 1) is parentless, sits at
level 0, appears in no children mapping of any task on the heap, and is
nevertheless wired into root.dependencies — a second root-less task outside
the root's hierarchy produced by a public creation operation. -/
theorem c8_createDependency_on_root_creates_orphan :
    c8res = Res.ok 1 c8st ∧
    parentOf c8st 1 = none ∧
    levelOf c8st 1 = 0 ∧
    depsOf c8st 0 = [1] ∧
    nextsOf c8st 1 = [0] ∧
    (c8st.tasks.all (fun p => !(p.snd.children.any (fun q => q.snd == 1)))) = true := by
  decide

/-!
## C10: serialized keys and defaulted fields
-/

/-- The three fields that get_json never writes keep their constructor
defaults on every heap object. -/
def defaultsKept (s : St) : Prop :=
  ∀ i td, getTask s i = some td →
    td.shown_completed = false ∧ td.position = none ∧ td.is_open = false

theorem defaultsKept_setTask {s : St} {i : Nat} {td : TaskData}
    (hs : defaultsKept s) (h1 : td.shown_completed = false)
    (h2 : td.position = none) (h3 : td.is_open = false) :
    defaultsKept (setTask s i td) := by
  intro j tdj hj
  rcases getTask_setTask_cases hj with he | ho
  · subst he; exact ⟨h1, h2, h3⟩
  · exact hs j tdj ho

theorem defaultsKept_alloc {s : St} {i : Nat} {td : TaskData}
    (hs : defaultsKept s) (h1 : td.shown_completed = false)
    (h2 : td.position = none) (h3 : td.is_open = false) :
    defaultsKept { tasks := s.tasks ++ [(i, td)], freshId := s.freshId + 1 } := by
  intro j tdj hj
  rcases getTask_alloc_cases i td hj with he | ho
  · subst he; exact ⟨h1, h2, h3⟩
  · exact hs j tdj ho

theorem addDepNext_defaults (fuel : Nat) (asDep : Bool) (s : St) (a b : Nat)
    (hs : defaultsKept s) : defaultsKept ((addDepNext fuel asDep s a b).st) := by
  induction fuel generalizing asDep s a b with
  | zero => simpa [addDepNext, Res.st] using hs
  | succ f ih =>
    unfold addDepNext
    split
    case _ selfT otherT heqa heqb =>
      rcases hs a selfT heqa with ⟨d1, d2, d3⟩
      split
      · split
        · simpa [Res.st] using hs
        · split
          · simpa [Res.st] using hs
          · exact ih false _ b a (defaultsKept_setTask hs d1 d2 d3)
      · split
        · simpa [Res.st] using hs
        · split
          · simpa [Res.st] using hs
          · exact ih true _ b a (defaultsKept_setTask hs d1 d2 d3)
    case _ => simpa [Res.st] using hs

theorem addChildParent_defaults (fuel : Nat) (asChild : Bool) (s : St) (a b : Nat)
    (hs : defaultsKept s) : defaultsKept ((addChildParent fuel asChild s a b).st) := by
  induction fuel generalizing asChild s a b with
  | zero => simpa [addChildParent, Res.st] using hs
  | succ f ih =>
    unfold addChildParent
    split
    case _ selfT otherT heqa heqb =>
      rcases hs a selfT heqa with ⟨d1, d2, d3⟩
      split
      · split
        · simpa [Res.st] using hs
        · split
          · simpa [Res.st] using hs
          · exact ih false _ b a (defaultsKept_setTask hs d1 d2 d3)
      · split
        · simpa [Res.st] using hs
        · split
          · simpa [Res.st] using hs
          · exact ih true _ b a (defaultsKept_setTask hs d1 d2 d3)
    case _ => simpa [Res.st] using hs

theorem dropFromNexts_defaults (deps : List Nat) (s : St) (self : Nat)
    (hs : defaultsKept s) : defaultsKept ((dropFromNexts s self deps).st) := by
  induction deps generalizing s with
  | nil => simpa [dropFromNexts, Res.st] using hs
  | cons d rest ih =>
    unfold dropFromNexts
    split
    case _ => simpa [Res.st] using hs
    case _ dT heq =>
      rcases hs d dT heq with ⟨d1, d2, d3⟩
      split
      · simpa [Res.st] using hs
      · exact ih _ (defaultsKept_setTask hs d1 d2 d3)

theorem dropFromDeps_defaults (nxts : List Nat) (s : St) (self : Nat)
    (hs : defaultsKept s) : defaultsKept ((dropFromDeps s self nxts).st) := by
  induction nxts generalizing s with
  | nil => simpa [dropFromDeps, Res.st] using hs
  | cons d rest ih =>
    unfold dropFromDeps
    split
    case _ => simpa [Res.st] using hs
    case _ dT heq =>
      rcases hs d dT heq with ⟨d1, d2, d3⟩
      split
      · simpa [Res.st] using hs
      · exact ih _ (defaultsKept_setTask hs d1 d2 d3)

theorem delRun_defaults (fuel : Nat) (s : St) (self : Nat)
    (mode : Option (List Nat × Nat)) (hs : defaultsKept s) :
    defaultsKept ((delRun fuel s self mode).st) := by
  induction fuel generalizing s self mode with
  | zero => simpa [delRun, Res.st] using hs
  | succ f ih =>
    unfold delRun
    split
    case _ =>
      split
      case _ => simpa [Res.st] using hs
      case _ selfT heq =>
        have hd1 := dropFromNexts_defaults selfT.dependencies s self hs
        split
        case _ e s1 heq1 => rw [heq1] at hd1; simpa [Res.st] using hd1
        case _ u s1 heq1 =>
          rw [heq1] at hd1
          simp only [Res.st] at hd1
          split
          case _ => simpa [Res.st] using hd1
          case _ selfT1 heq2 =>
            have hd2 := dropFromDeps_defaults selfT1.nexts s1 self hd1
            split
            case _ e s2 heq3 => rw [heq3] at hd2; simpa [Res.st] using hd2
            case _ u s2 heq3 =>
              rw [heq3] at hd2
              simp only [Res.st] at hd2
              split
              case _ => simpa [Res.st] using hd2
              case _ selfT2 heq4 =>
                have hd3 := ih s2 self (some (selfT2.children.map (fun p => p.snd),
                  selfT2.children.length)) hd2
                split
                case _ e s3 heq5 => rw [heq5] at hd3; simpa [Res.st] using hd3
                case _ u s3 heq5 =>
                  rw [heq5] at hd3
                  simp only [Res.st] at hd3
                  split
                  case _ => simpa [Res.st] using hd3
                  case _ selfT3 heq6 =>
                    split
                    case _ => simpa [Res.st] using hd3
                    case _ p hp =>
                      split
                      case _ => simpa [Res.st] using hd3
                      case _ pT heq7 =>
                        rcases hd3 p pT heq7 with ⟨d1, d2, d3⟩
                        split
                        · simpa [Res.st] using
                            @defaultsKept_setTask s3 p
                              { pT with children := dictDrop pT.children selfT3.name }
                              hd3 d1 d2 d3
                        · simpa [Res.st] using hd3
    case _ vals n0 =>
      split
      case _ =>
        split
        · simpa [Res.st] using hs
        · simpa [Res.st] using hs
      case _ c rest =>
        split
        · have hd1 := ih s c none hs
          split
          case _ e s1 heq1 => rw [heq1] at hd1; simpa [Res.st] using hd1
          case _ u s1 heq1 =>
            rw [heq1] at hd1
            simp only [Res.st] at hd1
            exact ih s1 self (some (rest, n0)) hd1
        · simpa [Res.st] using hs

theorem add_dependency_defaults (fuel : Nat) (s : St) (a b : Nat)
    (hs : defaultsKept s) : defaultsKept ((add_dependency fuel s a b).st) :=
  addDepNext_defaults fuel true s a b hs

theorem add_next_defaults (fuel : Nat) (s : St) (a b : Nat)
    (hs : defaultsKept s) : defaultsKept ((add_next fuel s a b).st) :=
  addDepNext_defaults fuel false s a b hs

theorem add_child_defaults (fuel : Nat) (s : St) (a b : Nat)
    (hs : defaultsKept s) : defaultsKept ((add_child fuel s a b).st) :=
  addChildParent_defaults fuel true s a b hs

theorem set_parent_defaults (fuel : Nat) (s : St) (a b : Nat)
    (hs : defaultsKept s) : defaultsKept ((set_parent fuel s a b).st) :=
  addChildParent_defaults fuel false s a b hs

theorem initKids_defaults (kids : List Nat) (s : St) (i : Nat)
    (hs : defaultsKept s) : defaultsKept ((initKids s i kids).st) := by
  induction kids generalizing s with
  | nil => simpa [initKids, Res.st] using hs
  | cons k rest ih =>
    unfold initKids
    have h1 := set_parent_defaults 3 s k i hs
    split
    case _ e s1 heq => rw [heq] at h1; simpa [Res.st] using h1
    case _ u s1 heq =>
      rw [heq] at h1
      simp only [Res.st] at h1
      exact ih _ h1

theorem initDeps_defaults (deps : List Nat) (s : St) (i : Nat)
    (hs : defaultsKept s) : defaultsKept ((initDeps s i deps).st) := by
  induction deps generalizing s with
  | nil => simpa [initDeps, Res.st] using hs
  | cons d rest ih =>
    unfold initDeps
    have h1 := add_next_defaults 3 s d i hs
    split
    case _ e s1 heq => rw [heq] at h1; simpa [Res.st] using h1
    case _ u s1 heq =>
      rw [heq] at h1
      simp only [Res.st] at h1
      exact ih _ h1

theorem initNexts_defaults (nxts : List Nat) (s : St) (i : Nat)
    (hs : defaultsKept s) : defaultsKept ((initNexts s i nxts).st) := by
  induction nxts generalizing s with
  | nil => simpa [initNexts, Res.st] using hs
  | cons n rest ih =>
    unfold initNexts
    have h1 := add_dependency_defaults 3 s n i hs
    split
    case _ e s1 heq => rw [heq] at h1; simpa [Res.st] using h1
    case _ u s1 heq =>
      rw [heq] at h1
      simp only [Res.st] at h1
      exact ih _ h1

theorem taskNew_defaults (s : St) (name : String) (parent : Option Nat)
    (deps nxts : List Nat) (kids : List (String × Nat)) (hs : defaultsKept s) :
    defaultsKept ((taskNew s name parent deps nxts kids).st) := by
  simp only [taskNew]
  have halloc : defaultsKept
      { tasks := s.tasks ++ [(s.freshId, newTask name parent deps nxts kids)],
        freshId := s.freshId + 1 } :=
    defaultsKept_alloc hs rfl rfl rfl
  have hloops : ∀ s2 : St, defaultsKept s2 → defaultsKept
      ((match initKids s2 s.freshId (kids.map (fun p => p.snd)) with
        | .err e s3 => .err e s3
        | .ok _ s3 =>
          match initDeps s3 s.freshId deps with
          | .err e s4 => .err e s4
          | .ok _ s4 =>
            match initNexts s4 s.freshId nxts with
            | .err e s5 => .err e s5
            | .ok _ s5 => Res.ok s.freshId s5 : Res Nat)).st := by
    intro s2 hs2
    have h1 := initKids_defaults (kids.map (fun p => p.snd)) s2 s.freshId hs2
    split
    case _ e s3 heq => rw [heq] at h1; simpa [Res.st] using h1
    case _ u s3 heq =>
      rw [heq] at h1
      simp only [Res.st] at h1
      have h2 := initDeps_defaults deps s3 s.freshId h1
      split
      case _ e s4 heq2 => rw [heq2] at h2; simpa [Res.st] using h2
      case _ u s4 heq2 =>
        rw [heq2] at h2
        simp only [Res.st] at h2
        have h3 := initNexts_defaults nxts s4 s.freshId h2
        split
        case _ e s5 heq3 => rw [heq3] at h3; simpa [Res.st] using h3
        case _ u s5 heq3 => rw [heq3] at h3; simpa [Res.st] using h3
  split
  case _ => exact hloops _ halloc
  case _ p =>
    split
    case _ => simpa [Res.st] using halloc
    case _ pT heqp =>
      have hbranch : ∀ s1 : St, defaultsKept s1 → defaultsKept
          ((if dictHas pT.children name then
              match delete 2 s1 s.freshId with
              | .err e s2 => .err e s2
              | .ok _ s2 => .err (.valueError (dupChildMsg name pT.name)) s2
            else
              match add_child 3 s1 p s.freshId with
              | .err e s2 => .err e s2
              | .ok _ s2 =>
                match initKids s2 s.freshId (kids.map (fun q => q.snd)) with
                | .err e s3 => .err e s3
                | .ok _ s3 =>
                  match initDeps s3 s.freshId deps with
                  | .err e s4 => .err e s4
                  | .ok _ s4 =>
                    match initNexts s4 s.freshId nxts with
                    | .err e s5 => .err e s5
                    | .ok _ s5 => Res.ok s.freshId s5 : Res Nat)).st := by
        intro s1 hs1
        split
        · have hdel : defaultsKept ((delete 2 s1 s.freshId).st) := by
            unfold delete
            exact delRun_defaults 2 s1 s.freshId none hs1
          split
          case _ e s2 heq => rw [heq] at hdel; simpa [Res.st] using hdel
          case _ u s2 heq => rw [heq] at hdel; simpa [Res.st] using hdel
        · have hac := add_child_defaults 3 s1 p s.freshId hs1
          split
          case _ e s2 heq => rw [heq] at hac; simpa [Res.st] using hac
          case _ u s2 heq =>
            rw [heq] at hac
            simp only [Res.st] at hac
            exact hloops s2 hac
      exact hbranch _ (defaultsKept_setTask halloc rfl rfl rfl)

theorem create_child_defaults (s : St) (i : Nat) (nm : String)
    (hs : defaultsKept s) : defaultsKept ((create_child s i nm).st) :=
  taskNew_defaults s nm (some i) [] [] [] hs

theorem create_dependency_defaults (s : St) (i : Nat) (nm : String)
    (hs : defaultsKept s) : defaultsKept ((create_dependency s i nm).st) := by
  unfold create_dependency
  split
  case _ => simpa [Res.st] using hs
  case _ selfT heq => exact taskNew_defaults s nm selfT.parent [] [i] [] hs

theorem create_next_defaults (s : St) (i : Nat) (nm : String)
    (hs : defaultsKept s) : defaultsKept ((create_next s i nm).st) := by
  unfold create_next
  split
  case _ => simpa [Res.st] using hs
  case _ selfT heq => exact taskNew_defaults s nm selfT.parent [i] [] [] hs

theorem loadDeps_defaults (names : List String) (s : St) (self par : Nat)
    (hs : defaultsKept s) : defaultsKept ((loadDeps s self par names).st) := by
  induction names generalizing s with
  | nil => simpa [loadDeps, Res.st] using hs
  | cons nm rest ih =>
    unfold loadDeps
    split
    case _ => simpa [Res.st] using hs
    case _ pT heq =>
      split
      case _ => simpa [Res.st] using hs
      case _ sib heq2 =>
        have h1 := add_dependency_defaults 3 s self sib hs
        split
        case _ e s1 heq3 => rw [heq3] at h1; simpa [Res.st] using h1
        case _ u s1 heq3 =>
          rw [heq3] at h1
          simp only [Res.st] at h1
          exact ih _ h1

theorem loadNexts_defaults (names : List String) (s : St) (self par : Nat)
    (hs : defaultsKept s) : defaultsKept ((loadNexts s self par names).st) := by
  induction names generalizing s with
  | nil => simpa [loadNexts, Res.st] using hs
  | cons nm rest ih =>
    unfold loadNexts
    split
    case _ => simpa [Res.st] using hs
    case _ pT heq =>
      split
      case _ => simpa [Res.st] using hs
      case _ sib heq2 =>
        have h1 := add_next_defaults 3 s self sib hs
        split
        case _ e s1 heq3 => rw [heq3] at h1; simpa [Res.st] using h1
        case _ u s1 heq3 =>
          rw [heq3] at h1
          simp only [Res.st] at h1
          exact ih _ h1

theorem loadCreateKids_defaults (names : List String) (s : St) (self : Nat)
    (hs : defaultsKept s) : defaultsKept ((loadCreateKids s self names).st) := by
  induction names generalizing s with
  | nil => simpa [loadCreateKids, Res.st] using hs
  | cons nm rest ih =>
    unfold loadCreateKids
    have h1 := create_child_defaults s self nm hs
    split
    case _ e s1 heq => rw [heq] at h1; simpa [Res.st] using h1
    case _ u s1 heq =>
      rw [heq] at h1
      simp only [Res.st] at h1
      exact ih _ h1

theorem foldl_andThen_defaults
    (g : (String × J) → St → Res Unit)
    (hg : ∀ kv s2, defaultsKept s2 → defaultsKept ((g kv s2).st)) :
    ∀ (l : List (String × J)) (acc : Res Unit), defaultsKept acc.st →
      defaultsKept ((l.foldl (fun a kv => a.andThen (g kv)) acc).st) := by
  intro l
  induction l with
  | nil => intro acc h; simpa using h
  | cons kv rest ih =>
    intro acc h
    rw [List.foldl_cons]
    apply ih
    cases acc with
    | ok u s2 => exact hg kv s2 (by simpa [Res.st] using h)
    | err e s2 => simpa [Res.andThen, Res.st] using h

theorem load_from_json_defaults (fuel : Nat) (s : St) (self : Nat) (d : J)
    (hs : defaultsKept s) : defaultsKept ((load_from_json fuel s self d).st) := by
  induction fuel generalizing s self d with
  | zero => simpa [load_from_json, Res.st] using hs
  | succ f ih =>
    simp only [load_from_json]
    split
    case _ fields =>
      split
      case _ => simpa [Res.st] using hs
      case _ td heq =>
        rcases hs self td heq with ⟨d1, d2, d3⟩
        split
        case _ => simpa [Res.st] using hs
        case _ nm heqn =>
          have hs1 : defaultsKept (setTask s self { td with name := nm }) :=
            defaultsKept_setTask hs d1 d2 d3
          split
          case _ => simpa [Res.st] using hs1
          case _ cp heqc =>
            have hs2 : defaultsKept (setTask (setTask s self { td with name := nm })
                self { td with name := nm, completed := cp }) :=
              defaultsKept_setTask hs1 d1 d2 d3
            split
            case _ => simpa [Res.st] using hs2
            case _ ds heqd =>
              have hs3 : defaultsKept (setTask
                  (setTask (setTask s self { td with name := nm }) self
                    { td with name := nm, completed := cp })
                  self { td with name := nm, completed := cp, description := ds }) :=
                defaultsKept_setTask hs2 d1 d2 d3
              have hcont : ∀ s4 : St, defaultsKept s4 → defaultsKept
                  ((match jGet fields "children" with
                    | none => Res.err (.keyError "children") s4
                    | some (J.obj kids) =>
                      match loadCreateKids s4 self (kids.map (fun p => p.fst)) with
                      | .err e s5 => .err e s5
                      | .ok _ s5 =>
                        kids.foldl
                          (fun acc kv =>
                            acc.andThen (fun s6 =>
                              match getTask s6 self with
                              | none => .err (.keyError missingTaskKey) s6
                              | some td6 =>
                                match dictGet td6.children kv.fst with
                                | none => .err (.keyError kv.fst) s6
                                | some cid => load_from_json f s6 cid kv.snd))
                          (.ok () s5)
                    | some _ => Res.err (.valueError shapeMsg) s4 : Res Unit)).st := by
                intro s4 hs4
                split
                case _ => simpa [Res.st] using hs4
                case _ kids heqk =>
                  have h5 := loadCreateKids_defaults (kids.map (fun p => p.fst)) s4 self hs4
                  split
                  case _ e s5 heq5 => rw [heq5] at h5; simpa [Res.st] using h5
                  case _ u s5 heq5 =>
                    rw [heq5] at h5
                    simp only [Res.st] at h5
                    apply foldl_andThen_defaults
                    · intro kv s6 hs6
                      split
                      case _ => simpa [Res.st] using hs6
                      case _ td6 heq6 =>
                        split
                        case _ => simpa [Res.st] using hs6
                        case _ cid heq7 => exact ih s6 cid kv.snd hs6
                    · simpa [Res.st] using h5
                case _ => simpa [Res.st] using hs4
              split
              case _ => exact hcont _ hs3
              case _ p hp =>
                split
                case _ => simpa [Res.st] using hs3
                case _ depNames heqdn =>
                  have h4 := loadDeps_defaults depNames _ self p hs3
                  split
                  case _ e s4 heq4 => rw [heq4] at h4; simpa [Res.st] using h4
                  case _ u s4 heq4 =>
                    rw [heq4] at h4
                    simp only [Res.st] at h4
                    split
                    case _ => simpa [Res.st] using h4
                    case _ nxNames heqnn =>
                      have h5 := loadNexts_defaults nxNames s4 self p h4
                      split
                      case _ e s5 heq5 => rw [heq5] at h5; simpa [Res.st] using h5
                      case _ u s5 heq5 =>
                        rw [heq5] at h5
                        simp only [Res.st] at h5
                        exact hcont s5 h5
                    case _ => simpa [Res.st] using h4
                case _ => simpa [Res.st] using hs3
            case _ => simpa [Res.st] using hs2
          case _ => simpa [Res.st] using hs1
        case _ => simpa [Res.st] using hs
    case _ => simpa [Res.st] using hs

/-- Running the plan constructor on a fresh heap yields exactly the root
task, with all defaulted fields. -/
theorem initState_eq (nm : String) :
    initState nm = { tasks := [(0, newTask nm none [] [] [])], freshId := 1 } := rfl

theorem initState_defaults (nm : String) : defaultsKept (initState nm) := by
  intro i td h
  rw [initState_eq] at h
  unfold getTask at h
  by_cases hi : (((0, newTask nm none [] [] []) : Nat × TaskData).fst == i) = true
  · rw [List.find?_cons_of_pos (p := fun (q : Nat × TaskData) => q.fst == i) _ hi] at h
    injection h with h2
    rw [← h2]
    exact ⟨rfl, rfl, rfl⟩
  · rw [List.find?_cons_of_neg (p := fun (q : Nat × TaskData) => q.fst == i) _ hi,
      List.find?_nil] at h
    exact Option.noConfusion h

mutual
/-- A document node produced by get_json: exactly the keys name,
dependencies, nexts, description, completed, children, in this order and
with these shapes, recursively at every child. -/
def wellKeyed (d : J) : Bool :=
  match d with
  | J.obj [("name", J.str _), ("dependencies", J.arr _), ("nexts", J.arr _),
           ("description", J.str _), ("completed", J.bool _),
           ("children", J.obj kids)] => wellKeyedKids kids
  | _ => false
termination_by structural d

def wellKeyedKids (l : List (String × J)) : Bool :=
  match l with
  | [] => true
  | (_, j) :: rest => wellKeyed j && wellKeyedKids rest
termination_by structural l
end

theorem get_json_wellKeyed : ∀ (fuel : Nat) (s : St) (i : Nat) (d : J),
    get_json fuel s i = some d → wellKeyed d = true := by
  intro fuel
  induction fuel with
  | zero => intro s i d h; simp [get_json] at h
  | succ f ih =>
    intro s i d h
    unfold get_json at h
    split at h
    case _ => simp at h
    case _ td heq =>
      simp only [Option.bind_eq_bind, Option.bind_eq_some] at h
      obtain ⟨depNames, hdn, h⟩ := h
      obtain ⟨nextNames, hnn, h⟩ := h
      obtain ⟨kids, hk, h⟩ := h
      injection h with h2
      rw [← h2]
      show wellKeyedKids kids = true
      clear h2 hdn hnn heq
      generalize hgen : td.children = cl at hk
      clear hgen
      induction cl generalizing kids with
      | nil =>
        rw [List.mapM_nil] at hk
        injection hk with hk2
        rw [← hk2]
        rfl
      | cons p rest ihl =>
        rw [List.mapM_cons] at hk
        simp only [Option.bind_eq_bind, Option.bind_eq_some, Option.pure_def,
          Option.some.injEq] at hk
        obtain ⟨a, ha, tail, htail, hkk⟩ := hk
        rw [Option.map_eq_some'] at ha
        obtain ⟨jj, hjj, haa⟩ := ha
        rw [← hkk, ← haa]
        show (wellKeyed jj && wellKeyedKids tail) = true
        simp only [Bool.and_eq_true]
        exact ⟨ih s p.snd jj hjj, ihl tail htail⟩

/-- C10: get_json (models.py 200-212) writes exactly the six keys name,
dependencies, nexts, description, completed, children at every node, and
load_from_json (214-232) never reads shown_completed, position or is_open,
so after a save/load round trip into a fresh plan every task carries the
constructor defaults false/None/false for those three fields, whatever the
document says and whatever the pre-save values were. -/
theorem c10_serialized_keys_and_defaulted_fields :
    (∀ (fuel : Nat) (s : St) (i : Nat) (d : J),
        get_json fuel s i = some d → wellKeyed d = true) ∧
    (∀ (nm : String) (fuel : Nat) (d : J) (i : Nat) (td : TaskData),
        getTask ((load_from_json fuel (initState nm) 0 d).st) i = some td →
        td.shown_completed = false ∧ td.position = none ∧ td.is_open = false) :=
  ⟨get_json_wellKeyed,
   fun nm fuel d i td h =>
     load_from_json_defaults fuel (initState nm) 0 d (initState_defaults nm) i td h⟩

def tdC10 : TaskData := (getTask c4load1.st 1).getD (newTask "" none [] [] [])

theorem c10_serialized_keys_witness :
    getTask c4load1.st 1 = some tdC10 ∧
    (tdC10.shown_completed = false ∧ tdC10.position = none ∧ tdC10.is_open = false) ∧
    wellKeyed c5doc = true :=
  ⟨by decide,
   c10_serialized_keys_and_defaulted_fields.2 "r" 20 c4doc 1 tdC10 (by decide),
   c10_serialized_keys_and_defaulted_fields.1 10 c5pre.st 0 c5doc (by decide)⟩


/-!
## C9: termination and idempotence of the dependency mirror
-/

/-- When the dependency is already present, add_dependency is a no-op at any
positive fuel. -/
theorem addDep_run_present (f : Nat) {s : St} {a b : Nat} {ta tb : TaskData}
    (ha : getTask s a = some ta) (hb : getTask s b = some tb)
    (hmem : b ∈ ta.dependencies) :
    add_dependency (f + 1) s a b = .ok () s := by
  unfold add_dependency addDepNext
  split
  case _ selfT otherT heqa heqb =>
    rw [ha] at heqa
    injection heqa with h1
    subst h1
    rw [if_pos rfl, if_pos hmem]
  case _ hno =>
    exact (hno ta tb (by rw [ha]) (by rw [hb])).elim

/-- The full three-call run of add_dependency when the edge is absent:
append b to a's dependencies, append a to b's nexts, then the third call
finds the dependency edge present and stops. -/
theorem addDep_run_absent (f : Nat) {s : St} {a b : Nat} {ta tb : TaskData}
    (hab : a ≠ b) (ha : getTask s a = some ta) (hb : getTask s b = some tb)
    (hlv : tb.level = ta.level) (hmem : b ∉ ta.dependencies)
    (hmem2 : a ∉ tb.nexts) :
    add_dependency (f + 3) s a b = .ok ()
      (setTask (setTask s a { ta with dependencies := ta.dependencies ++ [b] }) b
        { tb with nexts := tb.nexts ++ [a] }) := by
  have hba : b ≠ a := fun hh => hab hh.symm
  have hb1 : getTask (setTask s a { ta with dependencies := ta.dependencies ++ [b] }) b
      = some tb := by rw [getTask_setTask_ne _ _ hba]; exact hb
  have ha1 : getTask (setTask s a { ta with dependencies := ta.dependencies ++ [b] }) a
      = some { ta with dependencies := ta.dependencies ++ [b] } :=
    getTask_setTask_self ha _
  have ha2 : getTask (setTask
      (setTask s a { ta with dependencies := ta.dependencies ++ [b] }) b
      { tb with nexts := tb.nexts ++ [a] }) a
      = some { ta with dependencies := ta.dependencies ++ [b] } := by
    rw [getTask_setTask_ne _ _ hab]; exact ha1
  have hb2 : getTask (setTask
      (setTask s a { ta with dependencies := ta.dependencies ++ [b] }) b
      { tb with nexts := tb.nexts ++ [a] }) b
      = some { tb with nexts := tb.nexts ++ [a] } :=
    getTask_setTask_self hb1 _
  unfold add_dependency
  show addDepNext (f + 2 + 1) true s a b = _
  unfold addDepNext
  split
  case _ selfT otherT heqa heqb =>
    rw [ha] at heqa
    injection heqa with h1
    subst h1
    rw [hb] at heqb
    injection heqb with h2
    subst h2
    rw [if_pos rfl, if_neg hmem, if_neg (fun hh : tb.level ≠ ta.level => hh hlv)]
    show addDepNext (f + 1 + 1) false
        (setTask s a { ta with dependencies := ta.dependencies ++ [b] }) b a = _
    unfold addDepNext
    split
    case _ selfT otherT heqa2 heqb2 =>
      rw [hb1] at heqa2
      injection heqa2 with h3
      subst h3
      rw [ha1] at heqb2
      injection heqb2 with h4
      subst h4
      rw [if_neg (by simp : ¬(false = true)), if_neg hmem2]
      rw [if_neg (fun hh : ({ ta with dependencies := ta.dependencies ++ [b] } :
        TaskData).level ≠ tb.level => hh hlv.symm)]
      show addDepNext (f + 0 + 1) true
          (setTask (setTask s a { ta with dependencies := ta.dependencies ++ [b] }) b
            { tb with nexts := tb.nexts ++ [a] }) a b = _
      unfold addDepNext
      split
      case _ selfT otherT heqa3 heqb3 =>
        rw [ha2] at heqa3
        injection heqa3 with h5
        subst h5
        rw [hb2] at heqb3
        injection heqb3 with h6
        subst h6
        rw [if_pos rfl, if_pos (by simp : b ∈ ta.dependencies ++ [b])]
      case _ hno =>
        exact (hno _ _ (by rw [ha2]) (by rw [hb2])).elim
    case _ hno =>
      exact (hno _ _ (by rw [hb1]) (by rw [ha1])).elim
  case _ hno =>
    exact (hno ta tb (by rw [ha]) (by rw [hb])).elim

/-- C9: for distinct same-level tasks A and B of a consistent plan state
(the A-B mirror edges symmetric and duplicate-free, as every reachable state
keeps them), the mutually recursive add_dependency / add_next run terminates
— every fuel of at least 3 computes the very result of fuel 3, because the
second (or third) call finds the reverse edge already present and stops —
and afterwards the dependency edge b ∈ a.dependencies and the reverse next
edge a ∈ b.nexts are each present exactly once. -/
theorem c9_add_dependency_terminates_exactly_once
    (s : St) (a b : Nat) (ta tb : TaskData)
    (hab : a ≠ b)
    (ha : getTask s a = some ta) (hb : getTask s b = some tb)
    (hlv : tb.level = ta.level)
    (hsym : b ∈ ta.dependencies ↔ a ∈ tb.nexts)
    (hca : ta.dependencies.count b ≤ 1) (hcb : tb.nexts.count a ≤ 1) :
    (∀ f : Nat, add_dependency (f + 3) s a b = add_dependency 3 s a b) ∧
    ∃ s2, add_dependency 3 s a b = .ok () s2 ∧
      ∃ ta2 tb2, getTask s2 a = some ta2 ∧ getTask s2 b = some tb2 ∧
        ta2.dependencies.count b = 1 ∧ tb2.nexts.count a = 1 := by
  by_cases hmem : b ∈ ta.dependencies
  · have e2 : add_dependency 3 s a b = .ok () s := addDep_run_present 2 ha hb hmem
    constructor
    · intro f
      have e1 : add_dependency (f + 3) s a b = .ok () s :=
        addDep_run_present (f + 2) ha hb hmem
      rw [e1, e2]
    · refine ⟨s, e2, ta, tb, ha, hb, ?_, ?_⟩
      · have h1 : 1 ≤ ta.dependencies.count b := List.one_le_count_iff.mpr hmem
        omega
      · have hmem2 : a ∈ tb.nexts := hsym.mp hmem
        have h1 : 1 ≤ tb.nexts.count a := List.one_le_count_iff.mpr hmem2
        omega
  · have hmem2 : a ∉ tb.nexts := fun hh => hmem (hsym.mpr hh)
    have hba : b ≠ a := fun hh => hab hh.symm
    have e2 : add_dependency 3 s a b = .ok ()
        (setTask (setTask s a { ta with dependencies := ta.dependencies ++ [b] }) b
          { tb with nexts := tb.nexts ++ [a] }) :=
      addDep_run_absent 0 hab ha hb hlv hmem hmem2
    constructor
    · intro f
      have e1 := addDep_run_absent f hab ha hb hlv hmem hmem2
      rw [e1, e2]
    · refine ⟨_, e2, { ta with dependencies := ta.dependencies ++ [b] },
        { tb with nexts := tb.nexts ++ [a] }, ?_, ?_, ?_, ?_⟩
      · rw [getTask_setTask_ne _ _ hab]
        exact getTask_setTask_self ha _
      · exact getTask_setTask_self
          (by rw [getTask_setTask_ne _ _ hba]; exact hb) _
      · show (ta.dependencies ++ [b]).count b = 1
        rw [List.count_append, List.count_eq_zero.mpr hmem, List.count_singleton]
        simp
      · show (tb.nexts ++ [a]).count a = 1
        rw [List.count_append, List.count_eq_zero.mpr hmem2, List.count_singleton]
        simp

def c9sA : St := ((create_child (initState "r") 0 "A").andThen (fun s =>
  create_child s 0 "B")).st

def c9ta : TaskData := (getTask c9sA 1).getD (newTask "" none [] [] [])
def c9tb : TaskData := (getTask c9sA 2).getD (newTask "" none [] [] [])

theorem c9_witness :
    (∀ f : Nat, add_dependency (f + 3) c9sA 1 2 = add_dependency 3 c9sA 1 2) ∧
    ∃ s2, add_dependency 3 c9sA 1 2 = .ok () s2 ∧
      ∃ ta2 tb2, getTask s2 1 = some ta2 ∧ getTask s2 2 = some tb2 ∧
        ta2.dependencies.count 2 = 1 ∧ tb2.nexts.count 1 = 1 :=
  c9_add_dependency_terminates_exactly_once c9sA 1 2 c9ta c9tb
    (by decide) (by decide) (by decide) (by decide) (by decide)
    (by decide) (by decide)


/-!
## C8: where created tasks end up
-/

theorem dictGet_dictPut_absent (d : List (String × Nat)) (k : String) (v : Nat)
    (h : dictHas d k = false) : dictGet (dictPut d k v) k = some v := by
  unfold dictPut
  rw [if_neg (by rw [h]; exact Bool.false_ne_true)]
  unfold dictGet
  rw [List.find?_append]
  have hn : d.find? (fun p => p.fst == k) = none := by
    rw [List.find?_eq_none]
    intro x hx hpx
    have ha : d.any (fun p => p.fst == k) = true := List.any_eq_true.mpr ⟨x, hx, hpx⟩
    unfold dictHas at h
    rw [h] at ha
    cases ha
  rw [hn, Option.none_or]
  rw [List.find?_cons_of_pos (p := fun (q : String × Nat) => q.fst == k) _ (by simp)]
  rfl

/-- The run of add_child on a parent without a same-named child, where the
new task already has level parent+1 and its parent pointer set (the
constructor path, models.py 100): insert, and set_parent stops at once. -/
theorem addChild_run_constructor (f : Nat) {s : St} {p i : Nat} {pT ti : TaskData}
    (hp : getTask s p = some pT) (hi : getTask s i = some ti)
    (hpi : p ≠ i)
    (hname : dictHas pT.children ti.name = false)
    (hlv : ti.level = pT.level + 1)
    (hpar : ti.parent = some p) :
    add_child (f + 2) s p i = .ok ()
      (setTask s p { pT with children := dictPut pT.children ti.name i }) := by
  unfold add_child
  show addChildParent (f + 1 + 1) true s p i = _
  unfold addChildParent
  split
  case _ selfT otherT heqa heqb =>
    have h1 := Option.some.inj (hp.symm.trans heqa)
    subst h1
    have h2 := Option.some.inj (hi.symm.trans heqb)
    subst h2
    rw [if_pos rfl]
    rw [if_neg (by rw [hname]; exact Bool.false_ne_true)]
    rw [if_neg (fun hh => hh hlv)]
    show addChildParent (f + 1) false _ i p = _
    unfold addChildParent
    split
    case _ selfT otherT heqa2 heqb2 =>
      have hi2 : getTask
          (setTask s p { pT with children := dictPut pT.children ti.name i }) i
          = some ti := by
        rw [getTask_setTask_ne _ _ (fun hh => hpi hh.symm)]
        exact hi
      have h3 := Option.some.inj (hi2.symm.trans heqa2)
      subst h3
      rw [if_neg (by simp : ¬(false = true))]
      rw [if_pos hpar]
    case _ hno =>
      refine (hno ti { pT with children := dictPut pT.children ti.name i } ?_ ?_).elim
      · rw [getTask_setTask_ne _ _ (fun hh => hpi hh.symm)]
        exact hi
      · exact getTask_setTask_self hp _
  case _ hno =>
    exact (hno pT ti (by rw [hp]) (by rw [hi])).elim

/-- The run of create_child on a parent with no same-named child: allocate,
set the level, register via add_child, empty wiring loops. -/
theorem create_child_run {s : St} {p : Nat} {nm : String} {pT : TaskData}
    (hp : getTask s p = some pT)
    (hfresh : getTask s s.freshId = none)
    (hpf : p ≠ s.freshId)
    (hno : dictHas pT.children nm = false) :
    create_child s p nm = .ok s.freshId
      (setTask (setTask
          { tasks := s.tasks ++ [(s.freshId, newTask nm (some p) [] [] [])],
            freshId := s.freshId + 1 }
          s.freshId { newTask nm (some p) [] [] [] with level := pT.level + 1 }) p
        { pT with children := dictPut pT.children nm s.freshId }) := by
  have hp0 : getTask
      { tasks := s.tasks ++ [(s.freshId, newTask nm (some p) [] [] [])],
        freshId := s.freshId + 1 } p = some pT :=
    getTask_alloc_old s.freshId (newTask nm (some p) [] [] []) hp
  have hi0 : getTask
      { tasks := s.tasks ++ [(s.freshId, newTask nm (some p) [] [] [])],
        freshId := s.freshId + 1 } s.freshId = some (newTask nm (some p) [] [] []) :=
    getTask_alloc_self (newTask nm (some p) [] [] []) hfresh
  have hp1 : getTask (setTask
      { tasks := s.tasks ++ [(s.freshId, newTask nm (some p) [] [] [])],
        freshId := s.freshId + 1 }
      s.freshId { newTask nm (some p) [] [] [] with level := pT.level + 1 }) p
      = some pT := by
    rw [getTask_setTask_ne _ _ hpf]
    exact hp0
  have hi1 : getTask (setTask
      { tasks := s.tasks ++ [(s.freshId, newTask nm (some p) [] [] [])],
        freshId := s.freshId + 1 }
      s.freshId { newTask nm (some p) [] [] [] with level := pT.level + 1 }) s.freshId
      = some { newTask nm (some p) [] [] [] with level := pT.level + 1 } :=
    getTask_setTask_self hi0 _
  have hac : add_child 3 (setTask
      { tasks := s.tasks ++ [(s.freshId, newTask nm (some p) [] [] [])],
        freshId := s.freshId + 1 }
      s.freshId { newTask nm (some p) [] [] [] with level := pT.level + 1 }) p s.freshId
      = .ok () (setTask (setTask
          { tasks := s.tasks ++ [(s.freshId, newTask nm (some p) [] [] [])],
            freshId := s.freshId + 1 }
          s.freshId { newTask nm (some p) [] [] [] with level := pT.level + 1 }) p
        { pT with children := dictPut pT.children nm s.freshId }) :=
    addChild_run_constructor 1 hp1 hi1 hpf hno rfl rfl
  unfold create_child
  simp only [taskNew]
  rw [hp0]
  simp only
  rw [if_neg (by rw [hno]; exact Bool.false_ne_true)]
  rw [hac]
  simp only [initKids, initDeps, initNexts]


/-- The two-call run of add_dependency when the reverse next edge is already
present (the constructor wiring path, models.py 105-106): append the
dependency, and the mirrored add_next stops on its presence check. -/
theorem addDep_run_mirror (f : Nat) {s : St} {a b : Nat} {ta tb : TaskData}
    (hab : a ≠ b) (ha : getTask s a = some ta) (hb : getTask s b = some tb)
    (hlv : tb.level = ta.level) (hmem : b ∉ ta.dependencies)
    (hmem2 : a ∈ tb.nexts) :
    add_dependency (f + 2) s a b = .ok ()
      (setTask s a { ta with dependencies := ta.dependencies ++ [b] }) := by
  have hba : b ≠ a := fun hh => hab hh.symm
  have hb1 : getTask (setTask s a { ta with dependencies := ta.dependencies ++ [b] }) b
      = some tb := by rw [getTask_setTask_ne _ _ hba]; exact hb
  have ha1 : getTask (setTask s a { ta with dependencies := ta.dependencies ++ [b] }) a
      = some { ta with dependencies := ta.dependencies ++ [b] } :=
    getTask_setTask_self ha _
  unfold add_dependency
  show addDepNext (f + 1 + 1) true s a b = _
  unfold addDepNext
  split
  case _ selfT otherT heqa heqb =>
    have h1 := Option.some.inj (ha.symm.trans heqa)
    subst h1
    have h2 := Option.some.inj (hb.symm.trans heqb)
    subst h2
    rw [if_pos rfl, if_neg hmem, if_neg (fun hh : tb.level ≠ ta.level => hh hlv)]
    show addDepNext (f + 1) false
        (setTask s a { ta with dependencies := ta.dependencies ++ [b] }) b a = _
    unfold addDepNext
    split
    case _ selfT otherT heqa2 heqb2 =>
      have h3 := Option.some.inj (hb1.symm.trans heqa2)
      subst h3
      rw [if_neg (by simp : ¬(false = true)), if_pos hmem2]
    case _ hno =>
      exact (hno _ _ (by rw [hb1]) (by rw [ha1])).elim
  case _ hno =>
    exact (hno ta tb (by rw [ha]) (by rw [hb])).elim

/-- The run of create_dependency on a parentless (root) task: the new task
is allocated with parent None and nexts [t], registration is skipped, and
the wiring loop appends the dependency edge on t. -/
theorem create_dependency_root_run {s : St} {t : Nat} {nm : String} {tt : TaskData}
    (ht : getTask s t = some tt)
    (hfresh : getTask s s.freshId = none)
    (hroot : tt.parent = none)
    (hlv0 : tt.level = 0)
    (hnotin : s.freshId ∉ tt.dependencies) :
    create_dependency s t nm = .ok s.freshId
      (setTask { tasks := s.tasks ++ [(s.freshId, newTask nm none [] [t] [])],
                 freshId := s.freshId + 1 } t
        { tt with dependencies := tt.dependencies ++ [s.freshId] }) := by
  have htf : t ≠ s.freshId := by
    intro hh
    rw [hh, hfresh] at ht
    exact Option.noConfusion ht
  have ht0 : getTask
      { tasks := s.tasks ++ [(s.freshId, newTask nm none [] [t] [])],
        freshId := s.freshId + 1 } t = some tt :=
    getTask_alloc_old s.freshId (newTask nm none [] [t] []) ht
  have hi0 : getTask
      { tasks := s.tasks ++ [(s.freshId, newTask nm none [] [t] [])],
        freshId := s.freshId + 1 } s.freshId = some (newTask nm none [] [t] []) :=
    getTask_alloc_self (newTask nm none [] [t] []) hfresh
  have had : add_dependency 3
      { tasks := s.tasks ++ [(s.freshId, newTask nm none [] [t] [])],
        freshId := s.freshId + 1 } t s.freshId
      = .ok () (setTask
          { tasks := s.tasks ++ [(s.freshId, newTask nm none [] [t] [])],
            freshId := s.freshId + 1 } t
          { tt with dependencies := tt.dependencies ++ [s.freshId] }) :=
    addDep_run_mirror 1 htf ht0 hi0 (by rw [hlv0]; rfl) hnotin (by simp [newTask])
  unfold create_dependency
  rw [ht]
  simp only
  conv_lhs => rw [hroot]
  simp only [taskNew]
  simp only [initKids, initDeps, initNexts]
  rw [had]

/-- C8, amended.  First conjunct: a task created through create_child on a
parent with no same-named child is registered in the parent's children
mapping with its parent back pointer set — it belongs to the tree below
its parent.  Second conjunct: create_dependency invoked on a parentless
(root) task succeeds and yields a SECOND parentless task at level 0 that
appears in no children mapping anywhere on the heap while being wired to
the caller by the dependency/next mirror — a root-less task outside the
root's hierarchy, produced by a public creation operation. -/
theorem c8_amended_createChild_registers_root_createDependency_orphans :
    (∀ (s : St) (p : Nat) (nm : String) (pT : TaskData),
      getTask s p = some pT →
      getTask s s.freshId = none →
      p ≠ s.freshId →
      dictHas pT.children nm = false →
      ∃ s2 pT2 td2,
        create_child s p nm = .ok s.freshId s2 ∧
        getTask s2 p = some pT2 ∧
        dictGet pT2.children nm = some s.freshId ∧
        getTask s2 s.freshId = some td2 ∧
        td2.parent = some p) ∧
    (∀ (s : St) (t : Nat) (nm : String) (tt : TaskData),
      getTask s t = some tt →
      getTask s s.freshId = none →
      tt.parent = none →
      tt.level = 0 →
      s.freshId ∉ tt.dependencies →
      (∀ j tdj, getTask s j = some tdj → ∀ kv ∈ tdj.children, kv.snd ≠ s.freshId) →
      ∃ s2 td2 tt2,
        create_dependency s t nm = .ok s.freshId s2 ∧
        getTask s2 s.freshId = some td2 ∧
        td2.parent = none ∧
        td2.level = 0 ∧
        td2.nexts = [t] ∧
        getTask s2 t = some tt2 ∧
        tt2.dependencies = tt.dependencies ++ [s.freshId] ∧
        (∀ j tdj, getTask s2 j = some tdj → ∀ kv ∈ tdj.children, kv.snd ≠ s.freshId)) := by
  constructor
  · intro s p nm pT hp hfresh hpf hno
    refine ⟨_, { pT with children := dictPut pT.children nm s.freshId },
      { newTask nm (some p) [] [] [] with level := pT.level + 1 },
      create_child_run hp hfresh hpf hno, ?_, ?_, ?_, rfl⟩
    · exact getTask_setTask_self (by
        rw [getTask_setTask_ne _ _ hpf]
        exact getTask_alloc_old s.freshId (newTask nm (some p) [] [] []) hp) _
    · exact dictGet_dictPut_absent _ _ _ hno
    · rw [getTask_setTask_ne _ _ (fun hh => hpf hh.symm)]
      exact getTask_setTask_self (getTask_alloc_self _ hfresh) _
  · intro s t nm tt ht hfresh hroot hlv0 hnotin hmaps
    have htf : t ≠ s.freshId := by
      intro hh
      rw [hh, hfresh] at ht
      exact Option.noConfusion ht
    refine ⟨_, newTask nm none [] [t] [],
      { tt with dependencies := tt.dependencies ++ [s.freshId] },
      create_dependency_root_run ht hfresh hroot hlv0 hnotin, ?_, rfl, rfl, rfl,
      ?_, rfl, ?_⟩
    · rw [getTask_setTask_ne _ _ (fun hh => htf hh.symm)]
      exact getTask_alloc_self _ hfresh
    · exact getTask_setTask_self
        (getTask_alloc_old s.freshId (newTask nm none [] [t] []) ht) _
    · intro j tdj hj kv hkv
      rcases getTask_setTask_cases hj with he | ho
      · subst he
        exact hmaps t tt ht kv hkv
      · rcases getTask_alloc_cases _ _ ho with he2 | ho2
        · subst he2
          cases hkv
        · exact hmaps j tdj ho2 kv hkv

theorem getTask_initState {nm : String} {j : Nat} {tdj : TaskData}
    (h : getTask (initState nm) j = some tdj) :
    j = 0 ∧ tdj = newTask nm none [] [] [] := by
  rw [initState_eq] at h
  unfold getTask at h
  by_cases h0 : (((0, newTask nm none [] [] []) : Nat × TaskData).fst == j) = true
  · rw [List.find?_cons_of_pos (p := fun (q : Nat × TaskData) => q.fst == j) _ h0] at h
    injection h with h2
    refine ⟨?_, h2.symm⟩
    have := (beq_iff_eq).mp h0
    exact this.symm
  · rw [List.find?_cons_of_neg (p := fun (q : Nat × TaskData) => q.fst == j) _ h0,
      List.find?_nil] at h
    exact Option.noConfusion h

theorem c8_amended_witness :
    (∃ s2 pT2 td2,
        create_child (initState "r") 0 "A" = .ok (initState "r").freshId s2 ∧
        getTask s2 0 = some pT2 ∧
        dictGet pT2.children "A" = some (initState "r").freshId ∧
        getTask s2 (initState "r").freshId = some td2 ∧
        td2.parent = some 0) ∧
    (∃ s2 td2 tt2,
        create_dependency (initState "r") 0 "o" = .ok (initState "r").freshId s2 ∧
        getTask s2 (initState "r").freshId = some td2 ∧
        td2.parent = none ∧
        td2.level = 0 ∧
        td2.nexts = [0] ∧
        getTask s2 0 = some tt2 ∧
        tt2.dependencies = (newTask "r" none [] [] []).dependencies ++
          [(initState "r").freshId] ∧
        (∀ j tdj, getTask s2 j = some tdj → ∀ kv ∈ tdj.children,
          kv.snd ≠ (initState "r").freshId)) :=
  ⟨c8_amended_createChild_registers_root_createDependency_orphans.1
      (initState "r") 0 "A" (newTask "r" none [] [] [])
      (by decide) (by decide) (by decide) (by decide),
   c8_amended_createChild_registers_root_createDependency_orphans.2
      (initState "r") 0 "o" (newTask "r" none [] [] [])
      (by decide) (by decide) (by decide) (by decide) (by decide)
      (fun j tdj hj kv hkv => by
        rcases getTask_initState hj with ⟨h1, h2⟩
        subst h2
        cases hkv)⟩


theorem dictHas_dictDrop (d : List (String × Nat)) (k : String) :
    dictHas (dictDrop d k) k = false := by
  unfold dictHas dictDrop
  rw [Bool.eq_false_iff]
  intro hh
  rcases List.any_eq_true.mp hh with ⟨x, hx, hpx⟩
  rcases List.mem_filter.mp hx with ⟨hx1, hx2⟩
  rw [beq_iff_eq] at hpx
  simp [hpx] at hx2

/-- The rollback delete of a freshly constructed duplicate-named node
(models.py 98): the node has no relations, so the only mutation is
`del self.parent.children[self.name]` — which removes the ORIGINAL
same-named sibling from the parent's mapping. -/
theorem delete_fresh_run {s : St} {i : Nat} {ti : TaskData} {p : Nat} {pT : TaskData}
    (hi : getTask s i = some ti)
    (hdeps : ti.dependencies = []) (hnexts : ti.nexts = []) (hkids : ti.children = [])
    (hpar : ti.parent = some p)
    (hp : getTask s p = some pT)
    (hhas : dictHas pT.children ti.name = true) :
    delete 2 s i = .ok ()
      (setTask s p { pT with children := dictDrop pT.children ti.name }) := by
  have hcc : childCount s i = 0 := by
    unfold childCount
    rw [hi]
    simp only [hkids, List.length_nil]
  unfold delete
  simp only [delRun]
  rw [hi]
  simp only [hdeps, dropFromNexts]
  rw [hi]
  simp only
  simp only [hnexts, dropFromDeps]
  rw [hi]
  simp only
  simp only [hkids, List.map_nil, List.length_nil]
  rw [if_pos (by rw [hcc]; rfl)]
  simp only
  rw [hi]
  simp only
  simp only [hpar]
  rw [hp]
  simp only
  rw [if_pos hhas]

/-- The failing run of create_child on a parent that already has a child of
the same name: the rollback delete removes the ORIGINAL child from the
parent's mapping, then the duplicate-sibling error is raised. -/
theorem create_child_dup_run {s : St} {p : Nat} {nm : String} {pT : TaskData}
    (hp : getTask s p = some pT)
    (hfresh : getTask s s.freshId = none)
    (hpf : p ≠ s.freshId)
    (hhas : dictHas pT.children nm = true) :
    create_child s p nm = .err (.valueError (dupChildMsg nm pT.name))
      (setTask (setTask
          { tasks := s.tasks ++ [(s.freshId, newTask nm (some p) [] [] [])],
            freshId := s.freshId + 1 }
          s.freshId { newTask nm (some p) [] [] [] with level := pT.level + 1 }) p
        { pT with children := dictDrop pT.children nm }) := by
  have hp0 : getTask
      { tasks := s.tasks ++ [(s.freshId, newTask nm (some p) [] [] [])],
        freshId := s.freshId + 1 } p = some pT :=
    getTask_alloc_old s.freshId (newTask nm (some p) [] [] []) hp
  have hi0 : getTask
      { tasks := s.tasks ++ [(s.freshId, newTask nm (some p) [] [] [])],
        freshId := s.freshId + 1 } s.freshId = some (newTask nm (some p) [] [] []) :=
    getTask_alloc_self (newTask nm (some p) [] [] []) hfresh
  have hp1 : getTask (setTask
      { tasks := s.tasks ++ [(s.freshId, newTask nm (some p) [] [] [])],
        freshId := s.freshId + 1 }
      s.freshId { newTask nm (some p) [] [] [] with level := pT.level + 1 }) p
      = some pT := by
    rw [getTask_setTask_ne _ _ hpf]
    exact hp0
  have hi1 : getTask (setTask
      { tasks := s.tasks ++ [(s.freshId, newTask nm (some p) [] [] [])],
        freshId := s.freshId + 1 }
      s.freshId { newTask nm (some p) [] [] [] with level := pT.level + 1 }) s.freshId
      = some { newTask nm (some p) [] [] [] with level := pT.level + 1 } :=
    getTask_setTask_self hi0 _
  have hdel : delete 2 (setTask
      { tasks := s.tasks ++ [(s.freshId, newTask nm (some p) [] [] [])],
        freshId := s.freshId + 1 }
      s.freshId { newTask nm (some p) [] [] [] with level := pT.level + 1 }) s.freshId
      = .ok () (setTask (setTask
          { tasks := s.tasks ++ [(s.freshId, newTask nm (some p) [] [] [])],
            freshId := s.freshId + 1 }
          s.freshId { newTask nm (some p) [] [] [] with level := pT.level + 1 }) p
        { pT with children := dictDrop pT.children nm }) :=
    delete_fresh_run hi1 rfl rfl rfl rfl hp1 hhas
  unfold create_child
  simp only [taskNew]
  rw [hp0]
  simp only
  rw [if_pos hhas]
  rw [hdel]

/-- C4, amended: load_from_json creates every document child unconditionally
(models.py 229-230).  Loading a document into a live plan root that already
has a child named like the document's first child key fails with the
duplicate-sibling-name error, and the create_child rollback has removed the
existing same-named entry from the live mapping — nothing is updated in
place.  Loading the same document twice into the same tree therefore raises
instead of succeeding. -/
theorem c4_amended_load_creates_unconditionally
    (fuel : Nat) (s : St) (t : Nat) (fields : List (String × J)) (td : TaskData)
    (nm : String) (cp : Bool) (ds : String) (k : String) (kd : J)
    (rest : List (String × J))
    (ht : getTask s t = some td)
    (hroot : td.parent = none)
    (hfresh : getTask s s.freshId = none)
    (htf : t ≠ s.freshId)
    (hn : jGet fields "name" = some (J.str nm))
    (hc : jGet fields "completed" = some (J.bool cp))
    (hd : jGet fields "description" = some (J.str ds))
    (hk : jGet fields "children" = some (J.obj ((k, kd) :: rest)))
    (hhas : dictHas td.children k = true) :
    ∃ s2 td2, load_from_json (fuel + 1) s t (J.obj fields)
        = .err (.valueError (dupChildMsg k nm)) s2 ∧
      getTask s2 t = some td2 ∧ dictHas td2.children k = false := by
  have ht1 : getTask (setTask s t { td with name := nm }) t
      = some { td with name := nm } := getTask_setTask_self ht _
  have ht2 : getTask (setTask (setTask s t { td with name := nm }) t
      { td with name := nm, completed := cp }) t
      = some { td with name := nm, completed := cp } := getTask_setTask_self ht1 _
  have ht3 : getTask (setTask (setTask (setTask s t { td with name := nm }) t
      { td with name := nm, completed := cp }) t
      { td with name := nm, completed := cp, description := ds }) t
      = some { td with name := nm, completed := cp, description := ds } :=
    getTask_setTask_self ht2 _
  have hfr3 : getTask (setTask (setTask (setTask s t { td with name := nm }) t
      { td with name := nm, completed := cp }) t
      { td with name := nm, completed := cp, description := ds })
      ((setTask (setTask (setTask s t { td with name := nm }) t
        { td with name := nm, completed := cp }) t
        { td with name := nm, completed := cp, description := ds }).freshId)
      = none := by
    show getTask _ s.freshId = none
    rw [getTask_setTask_ne _ _ (fun hh => htf hh.symm),
        getTask_setTask_ne _ _ (fun hh => htf hh.symm),
        getTask_setTask_ne _ _ (fun hh => htf hh.symm)]
    exact hfresh
  have hdup := create_child_dup_run ht3 hfr3 htf
    (by simpa using hhas)
  have hp1' : getTask (setTask
      { tasks := (setTask (setTask (setTask s t { td with name := nm }) t
            { td with name := nm, completed := cp }) t
            { td with name := nm, completed := cp, description := ds }).tasks
          ++ [((setTask (setTask (setTask s t { td with name := nm }) t
            { td with name := nm, completed := cp }) t
            { td with name := nm, completed := cp, description := ds }).freshId,
            newTask k (some t) [] [] [])],
        freshId := (setTask (setTask (setTask s t { td with name := nm }) t
            { td with name := nm, completed := cp }) t
            { td with name := nm, completed := cp, description := ds }).freshId + 1 }
      (setTask (setTask (setTask s t { td with name := nm }) t
            { td with name := nm, completed := cp }) t
            { td with name := nm, completed := cp, description := ds }).freshId
      { newTask k (some t) [] [] [] with level := td.level + 1 }) t
      = some { td with name := nm, completed := cp, description := ds } := by
    exact (getTask_setTask_ne _ _ htf).trans (getTask_alloc_old _ _ ht3)
  simp only [hroot] at hdup hp1'
  have hload : load_from_json (fuel + 1) s t (J.obj fields)
      = .err (.valueError (dupChildMsg k nm)) (Res.st (create_child
          (setTask (setTask (setTask s t { td with name := nm, parent := none }) t
            { td with name := nm, parent := none, completed := cp }) t
            { td with name := nm, parent := none, completed := cp, description := ds }) t k)) := by
    simp only [load_from_json]
    rw [ht]
    simp only
    rw [hn]
    simp only
    rw [hc]
    simp only
    rw [hd]
    simp only
    simp only [hroot]
    rw [hk]
    simp only
    simp only [List.map_cons, loadCreateKids]
    rw [hdup]
    rfl
  refine ⟨_, { td with
      name := nm
      parent := none
      completed := cp
      description := ds
      children := dictDrop td.children k }, hload, ?_, ?_⟩
  · rw [hdup]
    exact getTask_setTask_self hp1' _
  · exact dictHas_dictDrop _ _

def c4w : St :=
  { tasks := [(0, newTask "r" none [] [] [("X", 1)]),
      (1, { newTask "X" (some 0) [] [] [] with level := 1 })],
    freshId := 2 }

def c4wDoc : List (String × J) :=
  [("name", J.str "r"), ("completed", J.bool false), ("description", J.str ""),
   ("children", J.obj [("X", J.obj [])])]

/-- Concrete instance of the amended C4 statement: a plan whose root already
has a child named X, loaded with a document whose children mapping also
holds the key X, fails with the duplicate-sibling error and the live X
entry is gone afterwards. -/
theorem c4_amended_witness :
    ((getTask c4w 0 = some (newTask "r" none [] [] [("X", 1)]) ∧
      (newTask "r" none [] [] [("X", 1)] : TaskData).parent = none ∧
      getTask c4w c4w.freshId = none ∧ (0 : Nat) ≠ c4w.freshId) ∧
     (jGet c4wDoc "name" = some (J.str "r") ∧
      jGet c4wDoc "completed" = some (J.bool false) ∧
      jGet c4wDoc "description" = some (J.str "") ∧
      jGet c4wDoc "children" = some (J.obj (("X", J.obj []) :: [])) ∧
      dictHas (newTask "r" none [] [] [("X", 1)] : TaskData).children "X" = true)) ∧
    (∃ s2 td2, load_from_json 1 c4w 0 (J.obj c4wDoc)
        = .err (.valueError (dupChildMsg "X" "r")) s2 ∧
      getTask s2 0 = some td2 ∧ dictHas td2.children "X" = false) :=
  ⟨⟨⟨by decide, by decide, by decide, by decide⟩,
    ⟨by decide, by decide, by decide, by decide, by decide⟩⟩,
   c4_amended_load_creates_unconditionally 0 c4w 0 c4wDoc
     (newTask "r" none [] [] [("X", 1)]) "r" false "" "X" (J.obj []) []
     (by decide) (by decide) (by decide) (by decide) (by decide) (by decide)
     (by decide) (by decide) (by decide)⟩

end Soniai
